import Mathlib

/-!
# Kobe Workflow Builder — verification of the workflow execution engine

Shallow embedding of the runtime core of the Kobe visual workflow editor:
the variable resolver, the node executor, the traversal engine
(`src/App.js`), the graph validator (test utilities), the integration
router (integration service index) and the webhook service
(`src/integrations/webhookService.js`).

JavaScript values are modelled by the inductive type `JVal` (numbers as
rationals; `undefined` is a distinct value).  Objects are association
lists in insertion order, as JS objects enumerate string keys.  External
effects (the simulated providers, the clock) are abstracted into an
environment `Env`; everything else is translated directly from the
source.
-/

/-- JavaScript value universe used by the engine.  JS numbers are IEEE
doubles; the engine only ever compares and prints decimal literals, so we
model them as rationals. -/
inductive JVal where
  | jundef : JVal
  | jnull : JVal
  | jbool : Bool → JVal
  | jnum : Rat → JVal
  | jstr : String → JVal
  | jarr : List JVal → JVal
  | jobj : List (String × JVal) → JVal

/-- A JS object: string keys to values, in insertion order. -/
abbrev Obj := List (String × JVal)

/-- The ExecutionContext: node id → that node's result object. -/
abbrev Ctx := List (String × Obj)

/-- First-match association-list lookup (JS property read). -/
def lookupKey {α : Type} : List (String × α) → String → Option α
  | [], _ => none
  | (k, v) :: rest, key => if k = key then some v else lookupKey rest key

/-- JS property write `o[k] = v`: overwrite in place if the key exists
(keeping its position), else append. -/
def setEntry {α : Type} : List (String × α) → String → α → List (String × α)
  | [], k, v => [(k, v)]
  | (k1, v1) :: rest, k, v =>
      if k1 = k then (k, v) :: rest else (k1, v1) :: setEntry rest k v

/-- Decimal digits of a natural number (JS prints integers in decimal). -/
def natDigits (n : Nat) : String := toString n

/-- `Number.prototype.toString` on the rationals the engine manipulates:
integers print as integers; fractions whose denominator divides a power
of ten print as finite decimals (e.g. `149.99`).  Other rationals cannot
arise from the decimal literals and decimal parsing used by the source. -/
def ratToString (q : Rat) : String :=
  if q.den = 1 then toString q.num
  else
    match (List.range 40).find? (fun k => 10 ^ k % q.den = 0) with
    | some k =>
        let scaled : Nat := (q.num.natAbs * 10 ^ k) / q.den
        let digits := natDigits scaled
        let digits := if digits.length ≤ k then
            String.mk (List.replicate (k + 1 - digits.length) '0') ++ digits
          else digits
        let intPart := digits.take (digits.length - k)
        let fracPart := digits.drop (digits.length - k)
        (if q.num < 0 then "-" else "") ++ intPart ++ "." ++ fracPart
    | none => toString q.num ++ "/" ++ toString q.den

/-- JSON string escaping (the subset `JSON.stringify` needs here). -/
def jsonEscape (s : String) : String :=
  s.data.foldr (fun c acc =>
    if c = '"' then "\\\"" ++ acc
    else if c = '\\' then "\\\\" ++ acc
    else if c = '\n' then "\\n" ++ acc
    else if c = '\t' then "\\t" ++ acc
    else if c = '\r' then "\\r" ++ acc
    else String.singleton c ++ acc) ""

mutual

/-- `JSON.stringify` (compact form, no spacing), as used by the variable
resolver on structured values. -/
def jsonStringify : JVal → String
  | JVal.jundef => "undefined"
  | JVal.jnull => "null"
  | JVal.jbool b => if b then "true" else "false"
  | JVal.jnum q => ratToString q
  | JVal.jstr s => "\"" ++ jsonEscape s ++ "\""
  | JVal.jarr xs => "[" ++ jsonStringifyArr xs ++ "]"
  | JVal.jobj fs => "\x7b" ++ jsonStringifyFields fs ++ "\x7d"

def jsonStringifyArr : List JVal → String
  | [] => ""
  | [x] => jsonStringify x
  | x :: rest => jsonStringify x ++ "," ++ jsonStringifyArr rest

def jsonStringifyFields : List (String × JVal) → String
  | [] => ""
  | [(k, v)] => "\"" ++ jsonEscape k ++ "\":" ++ jsonStringify v
  | (k, v) :: rest =>
      "\"" ++ jsonEscape k ++ "\":" ++ jsonStringify v ++ "," ++ jsonStringifyFields rest

end

/-- The resolver's value-to-text step:
`typeof value === 'object' ? JSON.stringify(value) : String(value)`.
(`typeof null` is `'object'`; `JSON.stringify(null)` and `String(null)`
agree anyway.) -/
def stringifyVal : JVal → String
  | JVal.jobj fs => jsonStringify (JVal.jobj fs)
  | JVal.jarr xs => jsonStringify (JVal.jarr xs)
  | JVal.jnull => "null"
  | JVal.jundef => "undefined"
  | JVal.jbool b => if b then "true" else "false"
  | JVal.jnum q => ratToString q
  | JVal.jstr s => s

/-- `String.prototype.split('.')` on a character list. -/
def splitDots : List Char → List (List Char)
  | [] => [[]]
  | '.' :: rest => [] :: splitDots rest
  | c :: rest =>
      match splitDots rest with
      | [] => [[c]]
      | p :: ps => (c :: p) :: ps

/-- The body of the resolver's replacement callback: split the path at
dots, destructure the first two components as `nodeId` and `field`
(extra components are dropped by the destructuring), soft-fail with
`none` when either is missing/empty, the node id is absent from the
context, or the field is `undefined` on the node's result object. -/
def resolvePath (ctx : Ctx) (inner : List Char) : Option String :=
  match splitDots inner with
  | nodeId :: field :: _ =>
      let nodeId := String.mk nodeId
      let field := String.mk field
      if nodeId = "" ∨ field = "" then none
      else
        match lookupKey ctx nodeId with
        | none => none
        | some obj =>
            match lookupKey obj field with
            | none => none
            | some JVal.jundef => none
            | some v => some (stringifyVal v)
  | _ => none

/-- Split a character list at the first occurrence of `}}` (the
non-greedy end of a `{{...}}` span): returns the characters before it
and the characters after it. -/
def findClose : List Char → Option (List Char × List Char)
  | [] => none
  | [_] => none
  | c :: d :: rest =>
      if c = '}' ∧ d = '}' then some ([], rest)
      else
        match findClose (d :: rest) with
        | none => none
        | some (a, b) => some (c :: a, b)

/-- Replacement for one matched `{{inner}}` span: the resolved value's
text, or the original span verbatim on soft-fail. -/
def spanReplace (ctx : Ctx) (inner : List Char) : List Char :=
  match resolvePath ctx inner with
  | none => '{' :: '{' :: (inner ++ '}' :: '}' :: [])
  | some s => s.data

/-- The scan of `template.replace(/{{(.*?)}}/g, ...)`: copy characters
until a `{{` with a later `}}` is found, replace the non-greedy span,
continue after it.  A `{{` with no later `}}` matches nothing and the
rest of the text is literal.  (Templates come from single-line form
inputs; the regex's `.` not crossing newlines is outside the model.)
`fuel` only bounds the recursion; any `fuel ≥ length` computes the
replacement (see `resolveChars_fuel`). -/
def resolveChars (ctx : Ctx) : Nat → List Char → List Char
  | 0, l => l
  | _ + 1, [] => []
  | fuel + 1, c :: rest =>
      if c = '{' ∧ rest.head? = some '{' then
        match findClose rest.tail with
        | none => c :: rest
        | some (inner, rest2) => spanReplace ctx inner ++ resolveChars ctx fuel rest2
      else c :: resolveChars ctx fuel rest

/-- `resolveVariables(template, context)` from `App.js` on a string
template. -/
def resolveVariables (template : String) (ctx : Ctx) : String :=
  String.mk (resolveChars ctx template.data.length template.data)

/-- `resolveVariables` on an arbitrary value: the guard
`if (!template || typeof template !== 'string') return template;`
returns non-strings unchanged (the empty string is falsy but resolving
it is the identity anyway). -/
def resolveVariablesJ (template : JVal) (ctx : Ctx) : JVal :=
  match template with
  | JVal.jstr s => JVal.jstr (resolveVariables s ctx)
  | v => v

/-- `resolveChars` at its canonical fuel (`resolveVariables` on raw
characters). -/
def resolveStr (ctx : Ctx) (l : List Char) : List Char :=
  resolveChars ctx l.length l

/-- Digits to a natural number (decimal). -/
def digitsToNat (l : List Char) : Nat :=
  l.foldl (fun a c => a * 10 + (c.toNat - '0'.toNat)) 0

/-- An exact decimal number, `mant / 10 ^ scale` (what `parseFloat`
yields on the decimal fragment the engine feeds it). -/
structure DecNum where
  mant : Int
  scale : Nat

/-- `parseFloat` on the decimal fragment the engine uses: skip leading
whitespace, optional sign, integer digits, optional fractional digits;
`none` models `NaN` (no digits at all).  Like `parseFloat`, trailing
garbage after the numeric prefix is ignored.  (The exponent form `1e3`
cannot be produced by the engine's configs and contexts and is not
modelled.) -/
def parseFloatD (s : String) : Option DecNum :=
  let l := s.data.dropWhile (fun c => c = ' ' ∨ c = '\t' ∨ c = '\n' ∨ c = '\r')
  let (neg, l) : Bool × List Char :=
    match l with
    | '-' :: r => (true, r)
    | '+' :: r => (false, r)
    | _ => (false, l)
  let ip := l.takeWhile Char.isDigit
  let l2 := l.dropWhile Char.isDigit
  let fp : List Char :=
    match l2 with
    | '.' :: r => r.takeWhile Char.isDigit
    | _ => []
  if ip.isEmpty ∧ fp.isEmpty then none
  else
    let mant : Int := Int.ofNat (digitsToNat ip * 10 ^ fp.length + digitsToNat fp)
    some { mant := if neg then -mant else mant, scale := fp.length }

/-- `parseFloat` applied to a possibly-`undefined` operand
(`parseFloat(undefined)` is `NaN`). -/
def parseFloatOpt (o : Option String) : Option DecNum :=
  match o with
  | none => none
  | some s => parseFloatD s

/-- Numeric `>` on exact decimals (cross-multiplied). -/
def decGt (a b : DecNum) : Bool :=
  b.mant * Int.ofNat (10 ^ a.scale) < a.mant * Int.ofNat (10 ^ b.scale)

/-- Numeric `<` on exact decimals (cross-multiplied). -/
def decLt (a b : DecNum) : Bool :=
  a.mant * Int.ofNat (10 ^ b.scale) < b.mant * Int.ofNat (10 ^ a.scale)

/-- JS `==` between the two resolved filter operands.  Each operand is a
string, or `undefined` when its config field is missing:
`undefined == undefined` is `true`, `undefined == string` is `false`,
strings compare by content. -/
def jsLooseEqStr (a b : Option String) : Bool :=
  match a, b with
  | some x, some y => x = y
  | none, none => true
  | _, _ => false

/-- Filter-condition evaluation from `processConnectedNodes`:
`conditionPassed` starts `true`; `equals` / `greater_than` / `less_than`
overwrite it; comparisons against `NaN` are `false`. -/
def evalFilterCondition (operator field value : Option String) : Bool :=
  if operator = some "equals" then jsLooseEqStr field value
  else if operator = some "greater_than" then
    match parseFloatOpt field, parseFloatOpt value with
    | some a, some b => decGt a b
    | _, _ => false
  else if operator = some "less_than" then
    match parseFloatOpt field, parseFloatOpt value with
    | some a, some b => decLt a b
    | _, _ => false
  else true

/-- JS truthiness on our value universe (no `NaN` arises here). -/
def jsFalsy : JVal → Bool
  | JVal.jundef => true
  | JVal.jnull => true
  | JVal.jbool b => !b
  | JVal.jnum q => q = 0
  | JVal.jstr s => s = ""
  | _ => false

/-- Whitespace skip for the JSON parser. -/
def skipWs (l : List Char) : List Char :=
  l.dropWhile (fun c => c = ' ' ∨ c = '\t' ∨ c = '\n' ∨ c = '\r')

/-- One JSON string body (after the opening quote), with the common
escapes. -/
def jsonString : Nat → List Char → Except String (String × List Char)
  | 0, _ => Except.error "Unexpected end of JSON input"
  | _ + 1, [] => Except.error "Unexpected end of JSON input"
  | fuel + 1, c :: rest =>
      if c = '"' then Except.ok ("", rest)
      else if c = '\\' then
        match rest with
        | [] => Except.error "Unexpected end of JSON input"
        | e :: rest2 =>
            let dec : Except String Char :=
              if e = '"' then Except.ok '"'
              else if e = '\\' then Except.ok '\\'
              else if e = '/' then Except.ok '/'
              else if e = 'n' then Except.ok '\n'
              else if e = 't' then Except.ok '\t'
              else if e = 'r' then Except.ok '\r'
              else Except.error "Bad escaped character in JSON"
            match dec with
            | Except.error m => Except.error m
            | Except.ok ch =>
                match jsonString fuel rest2 with
                | Except.error m => Except.error m
                | Except.ok (s, rr) => Except.ok (String.singleton ch ++ s, rr)
      else
        match jsonString fuel rest with
        | Except.error m => Except.error m
        | Except.ok (s, r) => Except.ok (String.singleton c ++ s, r)

/-- JSON number (optional sign, digits, optional fraction). -/
def jsonNumber (l : List Char) : Except String (Rat × List Char) :=
  let (neg, l1) : Bool × List Char :=
    match l with
    | '-' :: r => (true, r)
    | _ => (false, l)
  let ip := l1.takeWhile Char.isDigit
  let l2 := l1.dropWhile Char.isDigit
  if ip.isEmpty then Except.error "Unexpected token in JSON"
  else
    match l2 with
    | '.' :: r =>
        let fp := r.takeWhile Char.isDigit
        let l3 := r.dropWhile Char.isDigit
        if fp.isEmpty then Except.error "Unexpected token in JSON"
        else
          let mag : Rat := (digitsToNat ip : Rat) + (digitsToNat fp : Rat) / ((10 : Rat) ^ fp.length)
          Except.ok (if neg then -mag else mag, l3)
    | _ => Except.ok (if neg then -(digitsToNat ip : Rat) else (digitsToNat ip : Rat), l2)

mutual

/-- One JSON value (recursive descent; `fuel` bounds nesting and list
length, `jsonParse` supplies enough). -/
def jsonValue : Nat → List Char → Except String (JVal × List Char)
  | 0, _ => Except.error "Unexpected end of JSON input"
  | fuel + 1, l =>
      match skipWs l with
      | [] => Except.error "Unexpected end of JSON input"
      | c :: rest =>
          if c = '"' then
            match jsonString (fuel + 1) rest with
            | Except.error m => Except.error m
            | Except.ok (s, r) => Except.ok (JVal.jstr s, r)
          else if c = '[' then
            match skipWs rest with
            | ']' :: r => Except.ok (JVal.jarr [], r)
            | _ => jsonArrItems fuel (skipWs rest) []
          else if c = '{' then
            match skipWs rest with
            | '}' :: r => Except.ok (JVal.jobj [], r)
            | _ => jsonObjItems fuel (skipWs rest) []
          else if c = 't' then
            match rest with
            | 'r' :: 'u' :: 'e' :: r => Except.ok (JVal.jbool true, r)
            | _ => Except.error "Unexpected token in JSON"
          else if c = 'f' then
            match rest with
            | 'a' :: 'l' :: 's' :: 'e' :: r => Except.ok (JVal.jbool false, r)
            | _ => Except.error "Unexpected token in JSON"
          else if c = 'n' then
            match rest with
            | 'u' :: 'l' :: 'l' :: r => Except.ok (JVal.jnull, r)
            | _ => Except.error "Unexpected token in JSON"
          else
            match jsonNumber (c :: rest) with
            | Except.error m => Except.error m
            | Except.ok (q, r) => Except.ok (JVal.jnum q, r)

/-- Comma-separated array items up to `]`. -/
def jsonArrItems : Nat → List Char → List JVal → Except String (JVal × List Char)
  | 0, _, _ => Except.error "Unexpected end of JSON input"
  | fuel + 1, l, acc =>
      match jsonValue fuel l with
      | Except.error m => Except.error m
      | Except.ok (v, r) =>
          match skipWs r with
          | ']' :: r2 => Except.ok (JVal.jarr (acc ++ [v]), r2)
          | ',' :: r2 => jsonArrItems fuel r2 (acc ++ [v])
          | _ => Except.error "Unexpected token in JSON"

/-- Comma-separated `"key": value` pairs up to `}`. -/
def jsonObjItems : Nat → List Char → List (String × JVal) → Except String (JVal × List Char)
  | 0, _, _ => Except.error "Unexpected end of JSON input"
  | fuel + 1, l, acc =>
      match skipWs l with
      | '"' :: r =>
          match jsonString (fuel + 1) r with
          | Except.error m => Except.error m
          | Except.ok (k, r2) =>
              match skipWs r2 with
              | ':' :: r3 =>
                  match jsonValue fuel r3 with
                  | Except.error m => Except.error m
                  | Except.ok (v, r4) =>
                      match skipWs r4 with
                      | '}' :: r5 => Except.ok (JVal.jobj (setEntry acc k v), r5)
                      | ',' :: r5 => jsonObjItems fuel r5 (setEntry acc k v)
                      | _ => Except.error "Unexpected token in JSON"
              | _ => Except.error "Unexpected token in JSON"
      | _ => Except.error "Unexpected token in JSON"

end

/-- `JSON.parse` (used on action `headers` and data-modifier `input`). -/
def jsonParse (s : String) : Except String JVal :=
  match jsonValue (s.data.length + 1) s.data with
  | Except.error m => Except.error m
  | Except.ok (v, r) =>
      if (skipWs r).isEmpty then Except.ok v
      else Except.error "Unexpected non-whitespace character after JSON"

/-- The node types registered in `customNodeTypes`. -/
inductive NodeType where
  | trigger | action | filter | flowControl | modifierNode | validationNode
  | dataSource | dataModifier | multiBranch
deriving DecidableEq

/-- The source's string name of each node type (used in log lines). -/
def nodeTypeStr : NodeType → String
  | NodeType.trigger => "trigger"
  | NodeType.action => "action"
  | NodeType.filter => "filter"
  | NodeType.flowControl => "flowControl"
  | NodeType.modifierNode => "modifier"
  | NodeType.validationNode => "validation"
  | NodeType.dataSource => "dataSource"
  | NodeType.dataModifier => "dataModifier"
  | NodeType.multiBranch => "multiBranch"

/-- A workflow node.  `config` is `node.data.config`: every field the
engine reads out of it comes from a form text input or select, so config
values are strings (a missing key models an `undefined` field).
Position, notes and other editor-only data are never read by the
engine. -/
structure Node where
  id : String
  type : NodeType
  label : String
  config : List (String × String)

/-- A workflow edge (`source`/`target` are node ids). -/
structure Edge where
  id : String
  source : String
  target : String

/-- Read a config field (`undefined` when absent). -/
def getCfg (n : Node) (k : String) : Option String :=
  lookupKey n.config k

/-- JS truthiness of a config field: present and non-empty. -/
def cfgTruthy (o : Option String) : Bool :=
  match o with
  | some s => s ≠ ""
  | none => false

/-- `config.x || 'dflt'`. -/
def cfgOr (o : Option String) (dflt : String) : String :=
  match o with
  | some s => if s = "" then dflt else s
  | none => dflt

/-- `validateNode` from `App.js`: per-type required-field checks. -/
def validateNode (node : Node) : Option String :=
  if node.type = NodeType.trigger ∧ ¬ cfgTruthy (getCfg node "event")
      ∧ ¬ cfgTruthy (getCfg node "schedule") then
    some "Trigger requires event or schedule"
  else if node.type = NodeType.action ∧ ¬ cfgTruthy (getCfg node "api")
      ∧ ¬ cfgTruthy (getCfg node "actionType") then
    some "Action requires API or action type"
  else if node.type = NodeType.filter ∧ (¬ cfgTruthy (getCfg node "field")
      ∨ ¬ cfgTruthy (getCfg node "operator")) then
    some "Filter requires field and operator"
  else if node.type = NodeType.dataSource ∧ ¬ cfgTruthy (getCfg node "sourceType") then
    some "Data Source requires a source type"
  else if node.type = NodeType.dataModifier ∧ (¬ cfgTruthy (getCfg node "input")
      ∨ ¬ cfgTruthy (getCfg node "operationType")) then
    some "Data Modifier requires input and operation type"
  else if node.type = NodeType.multiBranch ∧ ¬ cfgTruthy (getCfg node "branchType") then
    some "Multi-path Branch requires a branch type"
  else none

/-- The environment abstracting the engine's effectful collaborators:
the clock (`new Date().toISOString()`) and the bodies of the provider
operations (simulated network calls with random payloads).  `integ s op
params` is the behaviour of operation `op` of service `s`: `Except.error`
models the operation throwing. -/
structure Env where
  now : String
  integ : String → String → Obj → Except String JVal

/-- `IntegrationManager`'s service registry: for each of the five
registered service kinds, the callable members of the service object (the
methods declared on its class).  Inherited `Object.prototype` members are
outside the model. -/
def serviceMethods (s : String) : Option (List String) :=
  if s = "api" then
    some ["makeRequest", "_prepareHeaders", "_headersToObject"]
  else if s = "email" then
    some ["sendEmail", "_sendWithSendGrid", "_sendWithMailchimp", "_sendWithSmtp",
          "_sendWithMockProvider"]
  else if s = "database" then
    some ["executeQuery", "_queryMySql", "_queryPostgres", "_queryMongoDB",
          "_querySqlite", "_queryMockDatabase", "_generateMockData"]
  else if s = "fileStorage" then
    some ["uploadFile", "downloadFile", "listFiles", "_uploadToS3", "_uploadToDropbox",
          "_uploadToGoogleDrive", "_uploadToLocalStorage", "_uploadToMockStorage",
          "_downloadFromMockStorage", "_listFilesFromMockStorage", "_getMimeType",
          "_downloadFromS3", "_downloadFromDropbox", "_downloadFromGoogleDrive",
          "_downloadFromLocalStorage", "_listFilesFromS3", "_listFilesFromDropbox",
          "_listFilesFromGoogleDrive", "_listFilesFromLocalStorage"]
  else if s = "webhook" then
    some ["registerWebhook", "processWebhook", "getWebhookHistory", "deleteWebhook",
          "_validateWebhookAuth", "testWebhook"]
  else none

/-- The function-valued properties every plain object inherits from
`Object.prototype` (ES2023; `constructor` is `Object`).  They make the
truthiness test `!this.services[serviceType]` and the
`typeof service[operation] === 'function'` test pass for names that are
not registered services or declared methods. -/
def objectProtoMethods : List String :=
  ["constructor", "hasOwnProperty", "isPrototypeOf", "propertyIsEnumerable",
   "toLocaleString", "toString", "valueOf",
   "__defineGetter__", "__defineSetter__", "__lookupGetter__", "__lookupSetter__"]

/-- The function-valued members reachable on a builtin function taken as
the "service" (own `Function.prototype` methods; its `__proto__` is
`Function.prototype`, itself callable). -/
def functionProtoMethods : List String :=
  ["apply", "bind", "call", "toString", "constructor", "__proto__"]

/-- What the property read `this.services[serviceType]` can yield beside
`undefined`: one of the five registered service instances, the
`Object.prototype` object (via the inherited `__proto__` accessor), or
one of the builtin functions inherited from `Object.prototype`. -/
inductive ServiceVal where
  | svc (name : String) (methods : List String)
  | protoObj
  | inheritedFn (name : String)

/-- `this.services[serviceType]`, `none` meaning a falsy (`undefined`)
result. -/
def servicesLookup (s : String) : Option ServiceVal :=
  match serviceMethods s with
  | some ms => some (ServiceVal.svc s ms)
  | none =>
      if s = "__proto__" then some ServiceVal.protoObj
      else if s ∈ objectProtoMethods then some (ServiceVal.inheritedFn s)
      else none

/-- The member names for which `typeof service[operation] === 'function'`
holds on the resolved service value: a service instance exposes its
declared methods and the `Object.prototype` methods; `Object.prototype`
exposes its own methods; a builtin function additionally exposes the
`Function.prototype` methods.  (Symbol-keyed members are unreachable by
the string `operation`.) -/
def callableMembers : ServiceVal → List String
  | ServiceVal.svc _ ms => ms ++ objectProtoMethods
  | ServiceVal.protoObj => objectProtoMethods
  | ServiceVal.inheritedFn _ => functionProtoMethods ++ objectProtoMethods

/-- `IntegrationManager.execute(serviceType, operation, config)`: a
`serviceType` that resolves to nothing on the services map — neither a
registered kind nor an inherited `Object.prototype` member — rejects as
an unknown service; an `operation` that is no callable member of the
resolved service value rejects as unsupported (except that reading the
restricted `caller`/`arguments` accessors of a builtin function throws a
`TypeError` first); otherwise the selected call runs — `env.integ` is
the behaviour of the awaited `service[operation](config)` call, whether
a declared service method or an inherited builtin — and its result or
error propagates unchanged. -/
def integrationExecute (env : Env) (serviceType operation : String) (config : Obj) :
    Except String JVal :=
  match servicesLookup serviceType with
  | none => Except.error ("Unknown service type: " ++ serviceType)
  | some sv =>
      match sv with
      | ServiceVal.inheritedFn _ =>
          if operation = "caller" ∨ operation = "arguments" then
            Except.error ("'caller', 'callee', and 'arguments' properties may not be "
              ++ "accessed on strict mode functions or the arguments objects for calls to them")
          else if operation ∈ callableMembers sv then env.integ serviceType operation config
          else Except.error ("Operation " ++ operation ++ " not supported by "
                ++ serviceType ++ " service")
      | _ =>
          if operation ∈ callableMembers sv then env.integ serviceType operation config
          else Except.error ("Operation " ++ operation ++ " not supported by "
                ++ serviceType ++ " service")

/-- Result shape of `executeNode` (the source returns ad-hoc objects:
`message`/`result`/`error` keys as present). -/
structure ExecResult where
  status : String
  result : Option JVal
  message : Option String
  errMsg : Option String

/-- `${x}` interpolation of a possibly-`undefined` string. -/
def optStr (o : Option String) : String :=
  match o with
  | some s => s
  | none => "undefined"

/-- `undefined`-aware injection of an optional string into `JVal`. -/
def optJ (o : Option String) : JVal :=
  match o with
  | some s => JVal.jstr s
  | none => JVal.jundef

/-- `resolveVariables` over a possibly-missing config field (non-strings
pass through, so `undefined` stays `undefined`). -/
def resolveOpt (o : Option String) (ctx : Ctx) : Option String :=
  match o with
  | some s => some (resolveVariables s ctx)
  | none => none

/-- The context as a JS value (the email action passes the whole context
as `templateData`). -/
def ctxToJVal (ctx : Ctx) : JVal :=
  JVal.jobj (ctx.map (fun p => (p.1, JVal.jobj p.2)))

/-- JS spread `{...v}` of an arbitrary value into an object literal:
objects keep their fields, arrays and strings spread index-keyed,
primitives (and `null`/`undefined`) contribute nothing. -/
def spreadIntoObj : JVal → Obj
  | JVal.jobj fs => fs
  | JVal.jarr xs => (List.range xs.length).zip xs |>.map (fun p => (toString p.1, p.2))
  | JVal.jstr s => (List.range s.data.length).zip s.data
      |>.map (fun p => (toString p.1, JVal.jstr (String.singleton p.2)))
  | _ => []

/-- Property read `v[k]` where reading off `null`/`undefined` throws a
`TypeError` and any other non-object simply yields `undefined`. -/
def jGetE (v : JVal) (k : String) : Except String (Option JVal) :=
  match v with
  | JVal.jundef => Except.error ("Cannot read properties of undefined (reading '" ++ k ++ "')")
  | JVal.jnull => Except.error ("Cannot read properties of null (reading '" ++ k ++ "')")
  | JVal.jobj fs => Except.ok (lookupKey fs k)
  | _ => Except.ok none

/-- `.length` of a value, as the source interpolates it into messages
(`undefined` for values with no length). -/
def lengthStr (v : JVal) : String :=
  match v with
  | JVal.jarr xs => toString xs.length
  | JVal.jstr s => toString s.data.length
  | _ => "undefined"

/-- `item.status === 'active'` filter over array elements; reading
`.status` off a `null`/`undefined` element throws. -/
def filterActive : List JVal → Except String (List JVal)
  | [] => Except.ok []
  | item :: rest =>
      match jGetE item "status" with
      | Except.error m => Except.error m
      | Except.ok st =>
          match filterActive rest with
          | Except.error m => Except.error m
          | Except.ok tl =>
              match st with
              | some (JVal.jstr s) => Except.ok (if s = "active" then item :: tl else tl)
              | _ => Except.ok tl

/-- `{ ...item, transformed: true }`. -/
def tagTransformed (item : JVal) : JVal :=
  JVal.jobj (setEntry (spreadIntoObj item) "transformed" (JVal.jbool true))

/-- The body of `executeNode` (the `try` part); `Except.error` is a
thrown error reaching the surrounding `catch`. -/
def executeNodeE (env : Env) (node : Node) (ctx : Ctx) : Except String ExecResult :=
  match node.type with
  | NodeType.trigger =>
      Except.ok { status := "success", result := none,
                  message := some ("Trigger " ++ node.label ++ " activated"), errMsg := none }
  | NodeType.action =>
      if getCfg node "actionType" = some "email" then
        let toAddr := resolveOpt (getCfg node "to") ctx
        let subject := resolveOpt (getCfg node "subject") ctx
        let body := resolveVariables (cfgOr (getCfg node "fields") "") ctx
        match integrationExecute env "email" "sendEmail"
            [("provider", JVal.jstr "mock"), ("to", optJ toAddr), ("subject", optJ subject),
             ("body", JVal.jstr body), ("template", optJ (getCfg node "template")),
             ("templateData", ctxToJVal ctx)] with
        | Except.error m => Except.error m
        | Except.ok r =>
            Except.ok { status := "success", result := some r,
                        message := some ("Email sent to " ++ optStr toAddr), errMsg := none }
      else if getCfg node "actionType" = some "api_call" then
        let url := resolveOpt (getCfg node "url") ctx
        let method := cfgOr (getCfg node "method") "GET"
        let headersE : Except String JVal :=
          match getCfg node "headers" with
          | some s =>
              if s = "" then Except.ok (JVal.jobj [])
              else jsonParse (resolveVariables s ctx)
          | none => Except.ok (JVal.jobj [])
        match headersE with
        | Except.error m => Except.error m
        | Except.ok headers =>
            match integrationExecute env "api" "makeRequest"
                [("url", optJ url), ("method", JVal.jstr method), ("headers", headers),
                 ("validateStatus", JVal.jbool true)] with
            | Except.error m => Except.error m
            | Except.ok r =>
                Except.ok { status := "success", result := some r,
                            message := some ("API call to " ++ optStr url ++ " completed"),
                            errMsg := none }
      else if getCfg node "actionType" = some "database" then
        let query := resolveOpt (getCfg node "query") ctx
        match integrationExecute env "database" "executeQuery"
            [("type", JVal.jstr "mysql"),
             ("connection", JVal.jstr "mock://localhost:3306/testdb"),
             ("query", optJ query)] with
        | Except.error m => Except.error m
        | Except.ok r =>
            Except.ok { status := "success", result := some r,
                        message := some "Database query executed", errMsg := none }
      else
        Except.ok { status := "success", result := none,
                    message := some ("Action " ++ node.label ++ " executed"), errMsg := none }
  | NodeType.dataSource =>
      let sourceType := getCfg node "sourceType"
      let query := resolveVariables (cfgOr (getCfg node "query") "") ctx
      let outputVar := cfgOr (getCfg node "outputVar") "data"
      if sourceType = some "database" then
        match integrationExecute env "database" "executeQuery"
            [("type", JVal.jstr "mysql"),
             ("connection", JVal.jstr "mock://localhost:3306/testdb"),
             ("query", JVal.jstr query)] with
        | Except.error m => Except.error m
        | Except.ok dbResult =>
            match jGetE dbResult "rows" with
            | Except.error m => Except.error m
            | Except.ok none =>
                Except.error "Cannot read properties of undefined (reading 'length')"
            | Except.ok (some rows) =>
                Except.ok { status := "success",
                            result := some (JVal.jobj [(outputVar, rows)]),
                            message := some ("Retrieved " ++ lengthStr rows
                              ++ " records from database"),
                            errMsg := none }
      else if sourceType = some "api" then
        let apiUrl := resolveVariables (cfgOr (getCfg node "apiUrl") "") ctx
        let url := if apiUrl = "" then "https://jsonplaceholder.typicode.com/posts/1" else apiUrl
        match integrationExecute env "api" "makeRequest"
            [("url", JVal.jstr url), ("method", JVal.jstr "GET")] with
        | Except.error m => Except.error m
        | Except.ok apiResult =>
            match jGetE apiResult "data" with
            | Except.error m => Except.error m
            | Except.ok dta =>
                Except.ok { status := "success",
                            result := some (JVal.jobj
                              [(outputVar, match dta with | some v => v | none => JVal.jundef)]),
                            message := some "Retrieved data from API", errMsg := none }
      else
        Except.ok { status := "success",
                    result := some (JVal.jobj [(outputVar,
                      JVal.jobj [("message", JVal.jstr "Mock data source result")])]),
                    message := some ("Data source " ++ node.label ++ " executed"),
                    errMsg := none }
  | NodeType.dataModifier =>
      let input := resolveVariables (cfgOr (getCfg node "input") "") ctx
      let operation := getCfg node "operationType"
      let output := cfgOr (getCfg node "output") "result"
      let inputData : JVal :=
        match jsonParse input with
        | Except.ok v => v
        | Except.error _ => JVal.jstr input
      let resultE : Except String (Option JVal) :=
        if operation = some "transform" then
          match inputData with
          | JVal.jarr xs => Except.ok (some (JVal.jarr (xs.map tagTransformed)))
          | v => Except.ok (some (tagTransformed v))
        else if operation = some "filter" then
          match inputData with
          | JVal.jarr xs =>
              match filterActive xs with
              | Except.error m => Except.error m
              | Except.ok l => Except.ok (some (JVal.jarr l))
          | v => Except.ok (some v)
        else Except.ok none
      match resultE with
      | Except.error m => Except.error m
      | Except.ok r0 =>
          let final : JVal :=
            match r0 with
            | none => inputData
            | some r => if jsFalsy r then inputData else r
          Except.ok { status := "success",
                      result := some (JVal.jobj [(output, final)]),
                      message := some ("Applied " ++ optStr operation ++ " operation to data"),
                      errMsg := none }
  | _ =>
      Except.ok { status := "success", result := none,
                  message := some ("Node " ++ node.label ++ " executed"), errMsg := none }

/-- `executeNode` from `App.js`: the `catch` turns any thrown error into
`{ status: 'error', error: error.message }`. -/
def executeNode (env : Env) (node : Node) (ctx : Ctx) : ExecResult :=
  match executeNodeE env node ctx with
  | Except.ok r => r
  | Except.error m =>
      { status := "error", result := none, message := none, errMsg := some m }

/-- The context entry written for an executed node:
`{ ...executionResult.result, status: executionResult.status }`. -/
def mergeResult (r : ExecResult) : Obj :=
  setEntry (match r.result with | some v => spreadIntoObj v | none => []) "status"
    (JVal.jstr r.status)

/-- Mutable run state threaded through the traversal: the shared
`context`, the `errors` array, and the execution log. -/
structure RunState where
  context : Ctx
  errors : List String
  logs : List String

/-- The result object a Filter node stores:
`{ result: conditionPassed, condition: "<field> <op> <value>" }`. -/
def filterObj (st : RunState) (tn : Node) : Obj :=
  let fieldR := resolveOpt (getCfg tn "field") st.context
  let operator := getCfg tn "operator"
  let valueR := resolveOpt (getCfg tn "value") st.context
  [("result", JVal.jbool (evalFilterCondition operator fieldR valueR)),
   ("condition", JVal.jstr (optStr fieldR ++ " " ++ optStr operator ++ " " ++ optStr valueR))]

/-- The state update of evaluating a Filter node: write its result
object under its id and log the outcome. -/
def filterWrite (st : RunState) (tn : Node) : RunState :=
  { st with
    context := setEntry st.context tn.id (filterObj st tn),
    logs := st.logs ++ ["Filter: " ++ tn.label ++ " evaluated to "
      ++ (if evalFilterCondition (getCfg tn "operator")
            (resolveOpt (getCfg tn "field") st.context)
            (resolveOpt (getCfg tn "value") st.context) = true then "true" else "false")] }

/-- The state update of executing a non-Filter node: merge its result
into the context under its id and log the outcome. -/
def execWrite (env : Env) (st : RunState) (tn : Node) : RunState :=
  let r := executeNode env tn st.context
  { st with
    context := setEntry st.context tn.id (mergeResult r),
    logs := st.logs ++ [nodeTypeStr tn.type ++ ": " ++ tn.label ++ " - "
      ++ optStr r.message] }

/-- The loop body of `processConnectedNodes`: handle the remaining
outgoing edges of some node, in edge-list order, sequentially.  `fuel`
bounds the recursion depth of the source's unbounded recursion; every
recursive call decreases it, and any large enough value computes the
run.  Each edge: look up the target (skip with only a console warning if
missing), run `validateNode` (record an error and prune the branch on
failure), evaluate Filter nodes specially and descend only when the
condition passed, and otherwise execute the node, merge its result into
the context and descend regardless of its status.  The per-edge `catch`
is unreachable here because `executeNode` already catches its own
errors. -/
def runEdges (env : Env) (nds : List Node) (eds : List Edge) :
    Nat → List Edge → RunState → RunState
  | 0, _, st => st
  | _ + 1, [], st => st
  | fuel + 1, e :: rest, st =>
      match nds.find? (fun n => n.id == e.target) with
      | none => runEdges env nds eds fuel rest st
      | some tn =>
          match validateNode tn with
          | some verr =>
              runEdges env nds eds fuel rest
                { st with errors := st.errors ++ ["Error in " ++ tn.label ++ ": " ++ verr] }
          | none =>
              if tn.type = NodeType.filter then
                runEdges env nds eds fuel rest
                  (if evalFilterCondition (getCfg tn "operator")
                        (resolveOpt (getCfg tn "field") st.context)
                        (resolveOpt (getCfg tn "value") st.context) = true then
                     runEdges env nds eds fuel (eds.filter (fun e2 => e2.source == e.target))
                       (filterWrite st tn)
                   else filterWrite st tn)
              else
                runEdges env nds eds fuel rest
                  (runEdges env nds eds fuel (eds.filter (fun e2 => e2.source == e.target))
                    (execWrite env st tn))

/-- `processConnectedNodes(nodeId, context, errors)`: process every edge
whose source is `nodeId`. -/
def processConnectedNodes (env : Env) (nds : List Node) (eds : List Edge)
    (fuel : Nat) (nodeId : String) (st : RunState) : RunState :=
  runEdges env nds eds fuel (eds.filter (fun e => e.source == nodeId)) st

/-- The synthetic event payload a fired Trigger writes into the context
(`new Date().toISOString()` is the environment's clock). -/
def triggerSeed (env : Env) (tn : Node) : Obj :=
  [("timestamp", JVal.jstr env.now),
   ("event", JVal.jstr (cfgOr (getCfg tn "event") "scheduled_event")),
   ("data", JVal.jobj
     [("userId", JVal.jstr "user_123"),
      ("customerId", JVal.jstr "cust_456"),
      ("orderId", JVal.jstr "ord_789"),
      ("orderTotal", JVal.jnum ((14999 : Rat) / 100)),
      ("orderDate", JVal.jstr env.now),
      ("orderItems", JVal.jarr
        [JVal.jobj [("productId", JVal.jstr "P001"), ("name", JVal.jstr "Product 1"),
                    ("price", JVal.jnum ((4999 : Rat) / 100)), ("quantity", JVal.jnum 2)],
         JVal.jobj [("productId", JVal.jstr "P002"), ("name", JVal.jstr "Product 2"),
                    ("price", JVal.jnum ((2999 : Rat) / 100)), ("quantity", JVal.jnum 1)],
         JVal.jobj [("productId", JVal.jstr "P003"), ("name", JVal.jstr "Product 3"),
                    ("price", JVal.jnum ((1999 : Rat) / 100)), ("quantity", JVal.jnum 1)]])])]

/-- What one run returns to the editor. -/
structure SimResult where
  context : Ctx
  logs : List String
  errors : List String

/-- `simulateWorkflow` from `App.js`: empty graph finishes immediately
with a warning; otherwise each Trigger node fires sequentially (warning
only when there is none), seeding the context and processing its
outgoing edges; the accumulated errors are appended to the log at the
end. -/
def simulateWorkflow (env : Env) (fuel : Nat) (nds : List Node) (eds : List Edge) :
    SimResult :=
  let logs0 := ["Starting workflow simulation..."]
  if nds.isEmpty then
    { context := [], logs := logs0 ++ ["Warning: No nodes to simulate"], errors := [] }
  else
    let triggerNodes := nds.filter (fun n => n.type == NodeType.trigger)
    let logs1 := logs0 ++
      (if triggerNodes.isEmpty then ["Warning: Workflow should start with a trigger node"]
       else [])
    let st := triggerNodes.foldl (fun st tn =>
        let st1 : RunState := { st with
          logs := st.logs ++ ["Trigger: " ++ tn.label ++ " fired"],
          context := setEntry st.context tn.id (triggerSeed env tn) }
        processConnectedNodes env nds eds fuel tn.id st1)
      { context := [], errors := [], logs := logs1 }
    { context := st.context,
      logs := st.logs ++ st.errors ++ ["Workflow simulation complete"],
      errors := st.errors }

/-- A workflow as handed to the validator: nodes plus edges. -/
structure Workflow where
  nodes : List Node
  edges : List Edge

/-- The mutable flags of `checkCircular`: per-node `visited` /
`inPath` marks (as id sets) and the accumulated error list. -/
structure DfsState where
  visited : List String
  inPath : List String
  errors : List String

/-- `checkCircular` from the test utilities, over a worklist of node ids
to visit at the current path position (the source's `for` loop over
`node.outgoing` with early `return true`).  A revisit of an id still
in the current path records a cycle error naming the whole path;
finishing a node clears its `inPath` mark but keeps `visited`.  `fuel`
bounds the recursion (the source terminates because `visited` marks are
permanent); `validateWorkflow` passes enough. -/
def checkCircularList (w : Workflow) :
    Nat → List String → List String → DfsState → Bool × DfsState
  | 0, _, _, st => (false, st)
  | _ + 1, [], _, st => (false, st)
  | fuel + 1, nodeId :: restIds, path, st =>
      if (w.nodes.find? (fun n => n.id == nodeId)).isNone then
        checkCircularList w fuel restIds path st
      else if nodeId ∈ st.inPath then
        (true, { st with errors := st.errors ++ ["Circular reference detected: "
          ++ String.intercalate " -> " (path ++ [nodeId])] })
      else if nodeId ∈ st.visited then
        checkCircularList w fuel restIds path st
      else
        let st1 := { st with visited := nodeId :: st.visited, inPath := nodeId :: st.inPath }
        let outgoing := (w.edges.filter (fun e => e.source == nodeId)).map (fun e => e.target)
        match checkCircularList w fuel outgoing (path ++ [nodeId]) st1 with
        | (true, st2) => (true, st2)
        | (false, st2) =>
            checkCircularList w fuel restIds path { st2 with inPath := st2.inPath.erase nodeId }

/-- `validateWorkflow` from the test utilities: at-least-one-node check,
at-least-one-trigger check, disconnected-node count, and one
`checkCircular` depth-first traversal per Trigger node sharing the
visited marks.  Returns `(valid, errors)`. -/
def validateWorkflow (w : Workflow) : Bool × List String :=
  let e1 := if w.nodes.isEmpty then ["Workflow must have at least one node"] else []
  let e2 := e1 ++
    (if w.nodes.any (fun n => n.type == NodeType.trigger) then []
     else ["Workflow must have at least one trigger node"])
  let connected := w.edges.foldr (fun e acc => e.source :: e.target :: acc) []
  let disconnected := w.nodes.filter
    (fun n => !(n.type == NodeType.trigger) && !(connected.contains n.id))
  let e3 := e2 ++
    (if disconnected.length > 0 then
      ["Found " ++ toString disconnected.length ++ " disconnected nodes"]
     else [])
  let fuel := (w.nodes.length + 1) * (w.edges.length + 2)
  let final := (w.nodes.filter (fun n => n.type == NodeType.trigger)).foldl
    (fun st tn => (checkCircularList w fuel [tn.id] [] st).2)
    { visited := [], inPath := [], errors := e3 }
  (final.errors.isEmpty, final.errors)

/-- A registered webhook (`handler` is the stored callback; an
`Except.error` result models the handler throwing). -/
structure Webhook where
  id : String
  path : String
  description : String
  authType : String
  authConfig : Obj
  handler : JVal → List (String × String) → Except String JVal
  createdAt : String
  url : String

/-- One `webhookHistory` entry. -/
structure HistoryEntry where
  webhookId : String
  path : String
  timestamp : String
  headers : List (String × String)
  body : JVal

/-- The webhook service's process-wide state: the registration map (in
insertion order, as `Map` iterates) and the request history. -/
structure WState where
  registeredWebhooks : List (String × Webhook)
  webhookHistory : List HistoryEntry

/-- `headers['x-webhook-token'] || headers['authorization']`: the first
of the two header values that is truthy (present and non-empty). -/
def effectiveToken (headers : List (String × String)) : Option String :=
  match lookupKey headers "x-webhook-token" with
  | some s => if s = "" then lookupKey headers "authorization" else some s
  | none => lookupKey headers "authorization"

/-- `_validateWebhookAuth`: `token` compares the `x-webhook-token`
header, falling back on `authorization` when falsy, against the stored
token (any falsy effective token fails); `hmac` merely requires a truthy
`x-webhook-signature` header; `none` always passes; anything else is
unsupported. -/
def validateWebhookAuth (webhook : Webhook) (headers : List (String × String)) :
    Except String Unit :=
  if webhook.authType = "token" then
    match effectiveToken headers with
    | none => Except.error "Invalid webhook token"
    | some t =>
        if t = "" then Except.error "Invalid webhook token"
        else
          match lookupKey webhook.authConfig "token" with
          | some (JVal.jstr stored) =>
              if t = stored then Except.ok () else Except.error "Invalid webhook token"
          | _ => Except.error "Invalid webhook token"
  else if webhook.authType = "hmac" then
    match lookupKey headers "x-webhook-signature" with
    | none => Except.error "Missing webhook signature"
    | some s => if s = "" then Except.error "Missing webhook signature" else Except.ok ()
  else if webhook.authType = "none" then Except.ok ()
  else Except.error ("Unsupported authentication type: " ++ webhook.authType)

/-- `processWebhook(config)`: find the webhook by path (first match in
registration order), validate authentication, append a history entry,
invoke the stored handler with `(body, headers)` and wrap its result in
a success envelope.  The state is returned alongside because the history
mutation survives a handler throw. -/
def processWebhook (st : WState) (now : String) (path : String)
    (headers : List (String × String)) (body : JVal) : Except String JVal × WState :=
  match (st.registeredWebhooks.map Prod.snd).find? (fun h => h.path == path) with
  | none => (Except.error ("No webhook registered for path: " ++ path), st)
  | some webhook =>
      match validateWebhookAuth webhook headers with
      | Except.error m => (Except.error m, st)
      | Except.ok _ =>
          let st1 := { st with webhookHistory := st.webhookHistory ++
            [{ webhookId := webhook.id, path := path, timestamp := now,
               headers := headers, body := body }] }
          match webhook.handler body headers with
          | Except.error m => (Except.error m, st1)
          | Except.ok result =>
              (Except.ok (JVal.jobj [("status", JVal.jstr "success"),
                ("webhookId", JVal.jstr webhook.id), ("result", result)]), st1)

/-! ## Concrete fixtures used by the claim theorems -/

/-- An environment whose provider operations all succeed with `null`
(none of the runs below reads their payload). -/
def mockEnv : Env := { now := "2025-01-01T00:00:00.000Z", integ := fun _ _ _ => Except.ok JVal.jnull }

/-- The spec's Filter-gating scenario: Filter node `3` reading
`{{3.x}}` with `greater_than` against `v`, and a successor node `4`. -/
def c1FilterNode (v : String) : Node :=
  { id := "3", type := NodeType.filter, label := "Check",
    config := [("field", "{{3.x}}"), ("operator", "greater_than"), ("value", v)] }

def c1SuccNode : Node := { id := "4", type := NodeType.flowControl, label := "After", config := [] }

def c1Nodes (v : String) : List Node := [c1FilterNode v, c1SuccNode]

def c1Edges : List Edge := [⟨"e1", "0", "3"⟩, ⟨"e2", "3", "4"⟩]

/-- The spec's starting context `{"3": {"x": 150}}`. -/
def c1Start : RunState :=
  { context := [("3", [("x", JVal.jnum 150)])], errors := [], logs := [] }

/-- An email Action node (C2). -/
def c2ActionNode : Node :=
  { id := "2", type := NodeType.action, label := "Send",
    config := [("actionType", "email"), ("to", "a@b.com"), ("subject", "S")] }

def c2SuccNode : Node := { id := "3", type := NodeType.flowControl, label := "After", config := [] }

def c2Nodes : List Node := [c2ActionNode, c2SuccNode]

def c2Edges : List Edge := [⟨"e1", "1", "2"⟩, ⟨"e2", "2", "3"⟩]

def c2Start : RunState := { context := [], errors := [], logs := [] }

/-- The parameter object `executeNode` passes to
`integrationManager.execute('email', 'sendEmail', ...)` for
`c2ActionNode` under the empty context. -/
def c2Params : Obj :=
  [("provider", JVal.jstr "mock"), ("to", JVal.jstr "a@b.com"), ("subject", JVal.jstr "S"),
   ("body", JVal.jstr ""), ("template", JVal.jundef), ("templateData", JVal.jobj [])]

/-- An environment whose email operation always throws (C2 witness). -/
def c2FailEnv : Env :=
  { now := "2025-01-01T00:00:00.000Z",
    integ := fun s op _ =>
      if s = "email" ∧ op = "sendEmail" then Except.error "Email send failed"
      else Except.ok JVal.jnull }

/-- C4 counterexample context: `1.a` holds text that itself looks like a
placeholder and `1.b` resolves. -/
def c4Ctx : Ctx := [("1", [("a", JVal.jstr "{{1.b}}"), ("b", JVal.jstr "X")])]

/-- Substituted values are brace-free: every text the resolver can
substitute under `ctx` contains neither `{` nor `}` (C4 amendment). -/
def resolvedBraceFree (ctx : Ctx) : Prop :=
  ∀ (inner : List Char) (s : String), resolvePath ctx inner = some s →
    '{' ∉ s.data ∧ '}' ∉ s.data

/-- C5 graph: trigger `1`, plain node `2`, and Filter `3` reading
`{{2.status}}`; edges ordered so the run reaches `3` once before `2`
has run and once after. -/
def c5TriggerNode : Node :=
  { id := "1", type := NodeType.trigger, label := "Start", config := [("event", "go")] }

def c5PassNode : Node := { id := "2", type := NodeType.flowControl, label := "Step", config := [] }

def c5FilterNode : Node :=
  { id := "3", type := NodeType.filter, label := "Gate",
    config := [("field", "{{2.status}}"), ("operator", "equals"), ("value", "success")] }

def c5Nodes : List Node := [c5TriggerNode, c5PassNode, c5FilterNode]

def c5e13 : Edge := ⟨"e13", "1", "3"⟩

def c5e12 : Edge := ⟨"e12", "1", "2"⟩

def c5e23 : Edge := ⟨"e23", "2", "3"⟩

def c5Edges : List Edge := [c5e13, c5e12, c5e23]

/-- The run state right after trigger `1` has seeded the context. -/
def c5Seed : RunState :=
  { context := setEntry [] "1" (triggerSeed mockEnv c5TriggerNode), errors := [], logs := [] }

/-- C8 workflow: `1 → 2 → 3 → 2` with node 1 a Trigger. -/
def c8Workflow : Workflow :=
  { nodes := [{ id := "1", type := NodeType.trigger, label := "T", config := [] },
              { id := "2", type := NodeType.action, label := "A", config := [] },
              { id := "3", type := NodeType.action, label := "B", config := [] }],
    edges := [⟨"e1", "1", "2"⟩, ⟨"e2", "2", "3"⟩, ⟨"e3", "3", "2"⟩] }

/-- An hmac-authenticated webhook registration (C9). -/
def c9HmacHook : Webhook :=
  { id := "webhook_1", path := "/h", description := "Webhook endpoint", authType := "hmac",
    authConfig := [("secret", JVal.jstr "k")], handler := fun b _ => Except.ok b,
    createdAt := "2025-01-01T00:00:00.000Z", url := "https://api.kobeapp.com/webhooks/h" }

def c9HmacState : WState :=
  { registeredWebhooks := [("webhook_1", c9HmacHook)], webhookHistory := [] }

/-- A token-authenticated webhook registration (C9 witness). -/
def c9TokenHook : Webhook :=
  { id := "webhook_2", path := "/t", description := "Webhook endpoint", authType := "token",
    authConfig := [("token", JVal.jstr "sekret")], handler := fun b _ => Except.ok b,
    createdAt := "2025-01-01T00:00:00.000Z", url := "https://api.kobeapp.com/webhooks/t" }

def c9TokenState : WState :=
  { registeredWebhooks := [("webhook_2", c9TokenHook)], webhookHistory := [] }

/-- A filter that always evaluates false (`"a" equals "b"`), gating a
reachable successor (C5 counterexample, second part). -/
def c5bFilterNode : Node :=
  { id := "5", type := NodeType.filter, label := "Closed",
    config := [("field", "a"), ("operator", "equals"), ("value", "b")] }

def c5bSuccNode : Node := { id := "4", type := NodeType.flowControl, label := "Behind", config := [] }

def c5bNodes : List Node := [c5TriggerNode, c5bFilterNode, c5bSuccNode]

def c5bEdges : List Edge := [⟨"e15", "1", "5"⟩, ⟨"e54", "5", "4"⟩]

/-- C10 scenario: a Filter whose operator `contains` is not implemented,
plus a successor. -/
def c10FilterNode : Node :=
  { id := "3", type := NodeType.filter, label := "Check",
    config := [("field", "{{3.x}}"), ("operator", "contains"), ("value", "999")] }

def c10Nodes : List Node := [c10FilterNode, c1SuccNode]

/-! ## Claim theorems -/

/-- Claim C1: Filter gating.  With context `{"3": {"x": 150}}`, field
template `{{3.x}}` and operator `greater_than`, value `100` makes the
condition pass (`result` is `true`) and node 3's successor `4` is
executed into the context, while value `200` makes it fail, the
successor is not visited, and no entry for it appears in the final
context.  Holds for every environment because neither the filter nor its
successor performs an integration call. -/
theorem filter_gating_c1 (env : Env) :
    (lookupKey (processConnectedNodes env (c1Nodes "100") c1Edges 5 "0" c1Start).context "3"
        = some [("result", JVal.jbool true),
                ("condition", JVal.jstr "150 greater_than 100")]
      ∧ lookupKey (processConnectedNodes env (c1Nodes "100") c1Edges 5 "0" c1Start).context "4"
        = some [("status", JVal.jstr "success")])
  ∧ (lookupKey (processConnectedNodes env (c1Nodes "200") c1Edges 5 "0" c1Start).context "3"
        = some [("result", JVal.jbool false),
                ("condition", JVal.jstr "150 greater_than 200")]
      ∧ lookupKey (processConnectedNodes env (c1Nodes "200") c1Edges 5 "0" c1Start).context "4"
        = none) := by
  exact ⟨⟨by rfl, by rfl⟩, by rfl, by rfl⟩

/-- Claim C7: a run over a graph with zero nodes completes immediately —
for every environment, fuel and edge list — with an empty context, the
warning log entry, and no errors (and, being a total function, never
throws). -/
theorem empty_graph_run_c7 (env : Env) (fuel : Nat) (eds : List Edge) :
    simulateWorkflow env fuel [] eds =
      { context := [],
        logs := ["Starting workflow simulation...", "Warning: No nodes to simulate"],
        errors := [] } :=
  rfl

/-- Claim C8: on the graph `1 → 2 → 3 → 2` with node 1 a Trigger,
`validateWorkflow` returns `valid: false` and its error list is exactly
the cycle error naming the full path `1 -> 2 -> 3 -> 2`; and in general,
visiting any existing node that is still marked in-current-path makes
the depth-first check record a cycle error listing the full path and
stop with `true`. -/
theorem cycle_detection_c8 :
    validateWorkflow c8Workflow =
      (false, ["Circular reference detected: 1 -> 2 -> 3 -> 2"])
  ∧ (∀ (w : Workflow) (fuel : Nat) (nodeId : String) (restIds path : List String)
        (st : DfsState),
        (w.nodes.find? (fun n => n.id == nodeId)).isSome →
        nodeId ∈ st.inPath →
        checkCircularList w (fuel + 1) (nodeId :: restIds) path st
          = (true, { st with errors := st.errors ++ ["Circular reference detected: "
              ++ String.intercalate " -> " (path ++ [nodeId])] })) := by
  refine ⟨by rfl, ?_⟩
  intro w fuel nodeId restIds path st h1 h2
  obtain ⟨tn, htn⟩ := Option.isSome_iff_exists.mp h1
  rw [checkCircularList, htn]
  rw [if_neg (by simp)]
  rw [if_pos h2]

/-- Witness for C8's general clause: revisiting node `2` of the cyclic
graph while `2` is still on the current path `1 -> 2 -> 3`. -/
theorem cycle_detection_c8_witness :
    checkCircularList c8Workflow 5 ["2"] ["1", "2", "3"]
        { visited := ["3", "2", "1"], inPath := ["3", "2", "1"], errors := [] }
      = (true, { visited := ["3", "2", "1"], inPath := ["3", "2", "1"],
                 errors := ["Circular reference detected: 1 -> 2 -> 3 -> 2"] }) :=
  cycle_detection_c8.2 c8Workflow 4 "2" [] ["1", "2", "3"]
    { visited := ["3", "2", "1"], inPath := ["3", "2", "1"], errors := [] }
    (by rfl) (by decide)

/-- Claim C10: for a Filter whose operator is none of `equals`,
`greater_than`, `less_than`, the evaluated `conditionPassed` stays at
its initial `true` whatever the operands, so the gate defaults to open;
concretely, a Filter with operator `contains` passes and its successor
is executed into the context. -/
theorem unknown_operator_gate_c10 :
    (∀ (op : String) (field value : Option String),
        op ≠ "equals" → op ≠ "greater_than" → op ≠ "less_than" →
        evalFilterCondition (some op) field value = true)
  ∧ (∀ (env : Env),
      lookupKey (processConnectedNodes env c10Nodes c1Edges 5 "0" c1Start).context "3"
          = some [("result", JVal.jbool true),
                  ("condition", JVal.jstr "150 contains 999")]
        ∧ lookupKey (processConnectedNodes env c10Nodes c1Edges 5 "0" c1Start).context "4"
          = some [("status", JVal.jstr "success")]) := by
  constructor
  · intro op field value h1 h2 h3
    simp [evalFilterCondition, h1, h2, h3]
  · intro env
    exact ⟨by rfl, by rfl⟩

/-- Witness for C10 at the concrete operator `contains`. -/
theorem unknown_operator_gate_c10_witness :
    evalFilterCondition (some "contains") (some "150") (some "999") = true :=
  unknown_operator_gate_c10.1 "contains" (some "150") (some "999")
    (by decide) (by decide) (by decide)

/-- Counterexample to claim C4: variable resolution is not idempotent for
every template and context.  With `1.a` holding the text `{{1.b}}` and
`1.b` holding `X`, resolving `{{1.a}}` once yields `{{1.b}}`, and
resolving again yields `X`. -/
theorem resolve_idempotent_c4_counterexample :
    resolveVariables "{{1.a}}" c4Ctx = "{{1.b}}"
  ∧ resolveVariables (resolveVariables "{{1.a}}" c4Ctx) c4Ctx = "X"
  ∧ resolveVariables (resolveVariables "{{1.a}}" c4Ctx) c4Ctx
      ≠ resolveVariables "{{1.a}}" c4Ctx := by
  refine ⟨by rfl, by rfl, ?_⟩
  intro h
  rw [show resolveVariables (resolveVariables "{{1.a}}" c4Ctx) c4Ctx = "X" from rfl,
      show resolveVariables "{{1.a}}" c4Ctx = "{{1.b}}" from rfl] at h
  exact absurd h (by decide)

/-- Counterexample to claim C5: the ExecutionContext is not append-only
by node id.  In the run started by trigger `1` (whose outgoing edge list
is exactly `[c5e13, c5e12]`), after the first outgoing edge the Filter
node `3` has been written as `result: false` (node `2` had not run yet,
so `{{2.status}}` did not resolve); by the end of the same run the entry
under id `3` has been overwritten with the different value
`result: true`, which is also what the full `simulateWorkflow` run
leaves in the final context.  The claim's second part also fails: on the
graph `1 → 5 → 4` whose Filter `5` evaluates false, node `4` is
reachable from the Trigger yet has no entry in the final context. -/
theorem context_overwrite_c5_counterexample :
    processConnectedNodes mockEnv c5Nodes c5Edges 10 "1" c5Seed
        = runEdges mockEnv c5Nodes c5Edges 10 [c5e13, c5e12] c5Seed
  ∧ lookupKey (runEdges mockEnv c5Nodes c5Edges 10 [c5e13] c5Seed).context "3"
        = some [("result", JVal.jbool false),
                ("condition", JVal.jstr "{{2.status}} equals success")]
  ∧ lookupKey (runEdges mockEnv c5Nodes c5Edges 10 [c5e13, c5e12] c5Seed).context "3"
        = some [("result", JVal.jbool true),
                ("condition", JVal.jstr "success equals success")]
  ∧ lookupKey (simulateWorkflow mockEnv 10 c5Nodes c5Edges).context "3"
        = some [("result", JVal.jbool true),
                ("condition", JVal.jstr "success equals success")]
  ∧ (JVal.jbool false) ≠ (JVal.jbool true)
  ∧ lookupKey (simulateWorkflow mockEnv 10 c5bNodes c5bEdges).context "4" = none := by
  refine ⟨by rfl, by rfl, by rfl, by rfl, ?_, by rfl⟩
  intro h
  cases h

/-- Claim C2: when a non-Filter node's execution fails — here an email
Action whose Integration Router call throws (any environment whose
`email.sendEmail` rejects with message `m` on the parameters this node
passes) — the error is captured into that node's own context entry as
`status: "error"`, and the traversal still executes the node's successor
`3`, whose entry appears in the context with `status: "success"`. -/
theorem node_failure_no_prune_c2 (env : Env) (m : String)
    (h : env.integ "email" "sendEmail" c2Params = Except.error m) :
    lookupKey (processConnectedNodes env c2Nodes c2Edges 5 "1" c2Start).context "2"
        = some [("status", JVal.jstr "error")]
  ∧ lookupKey (processConnectedNodes env c2Nodes c2Edges 5 "1" c2Start).context "3"
        = some [("status", JVal.jstr "success")] := by
  have hE : executeNodeE env c2ActionNode c2Start.context = Except.error m := by
    show (match env.integ "email" "sendEmail" c2Params with
          | Except.error mm => Except.error mm
          | Except.ok r =>
              Except.ok ({ status := "success",
                           result := some r,
                           message := some ("Email sent to "
                             ++ optStr (resolveOpt (getCfg c2ActionNode "to") c2Start.context)),
                           errMsg := none } : ExecResult)) = Except.error m
    rw [h]
  have hX : executeNode env c2ActionNode c2Start.context
      = { status := "error", result := none, message := none, errMsg := some m } := by
    show (match executeNodeE env c2ActionNode c2Start.context with
          | Except.ok r => r
          | Except.error mm =>
              ({ status := "error",
                 result := none,
                 message := none,
                 errMsg := some mm } : ExecResult)) =
        { status := "error", result := none, message := none, errMsg := some m }
    rw [hE]
  constructor
  · show some (mergeResult (executeNode env c2ActionNode c2Start.context))
        = some [("status", JVal.jstr "error")]
    rw [hX]
    rfl
  · rfl

/-- Witness for C2 at the concrete failing environment `c2FailEnv`. -/
theorem node_failure_no_prune_c2_witness :
    lookupKey (processConnectedNodes c2FailEnv c2Nodes c2Edges 5 "1" c2Start).context "2"
        = some [("status", JVal.jstr "error")]
  ∧ lookupKey (processConnectedNodes c2FailEnv c2Nodes c2Edges 5 "1" c2Start).context "3"
        = some [("status", JVal.jstr "success")] :=
  node_failure_no_prune_c2 c2FailEnv "Email send failed" (by rfl)

/-- Claim C3: a `{{nodeId.field}}` placeholder is left unchanged, with
no error raised, whenever the path does not resolve — in particular
whenever `nodeId` is absent from the context or `field` is absent from
that node's result object; `resolve("Hello {{9.name}}", {})` returns
`"Hello {{9.name}}"`; and a non-string template is returned unchanged. -/
theorem unresolved_placeholder_c3 :
    (∀ (ctx : Ctx) (inner : List Char), resolvePath ctx inner = none →
        spanReplace ctx inner = '{' :: '{' :: (inner ++ '}' :: '}' :: []))
  ∧ (∀ (ctx : Ctx) (inner nodeId field : List Char) (restParts : List (List Char)),
        splitDots inner = nodeId :: field :: restParts →
        (lookupKey ctx (String.mk nodeId) = none ∨
          ∃ obj, lookupKey ctx (String.mk nodeId) = some obj
            ∧ lookupKey obj (String.mk field) = none) →
        resolvePath ctx inner = none)
  ∧ resolveVariables "Hello {{9.name}}" [] = "Hello {{9.name}}"
  ∧ (∀ (v : JVal) (ctx : Ctx), (∀ s, v ≠ JVal.jstr s) → resolveVariablesJ v ctx = v) := by
  refine ⟨?_, ?_, by rfl, ?_⟩
  · intro ctx inner h
    unfold spanReplace
    rw [h]
  · intro ctx inner nodeId field restParts hsplit hmiss
    unfold resolvePath
    rw [hsplit]
    show (if String.mk nodeId = "" ∨ String.mk field = "" then none
          else match lookupKey ctx (String.mk nodeId) with
               | none => none
               | some obj =>
                   match lookupKey obj (String.mk field) with
                   | none => none
                   | some JVal.jundef => none
                   | some v => some (stringifyVal v)) = none
    rcases hmiss with hnode | ⟨obj, hobj, hfield⟩
    · split
      · rfl
      · rw [hnode]
    · split
      · rfl
      · rw [hobj]
        show (match lookupKey obj (String.mk field) with
              | none => none
              | some JVal.jundef => none
              | some v => some (stringifyVal v)) = none
        rw [hfield]
  · intro v ctx hv
    cases v
    case jstr s => exact absurd rfl (hv s)
    all_goals rfl

/-- Witness for C3: the unresolved span `9.name` against concrete
contexts, and a non-string (numeric) template. -/
theorem unresolved_placeholder_c3_witness :
    spanReplace [] "9.name".data = '{' :: '{' :: ("9.name".data ++ '}' :: '}' :: [])
  ∧ resolvePath [("1", [("b", JVal.jstr "X")])] "9.name".data = none
  ∧ resolveVariablesJ (JVal.jbool true) [] = JVal.jbool true := by
  refine ⟨unresolved_placeholder_c3.1 [] "9.name".data (by rfl),
    unresolved_placeholder_c3.2.1 [("1", [("b", JVal.jstr "X")])] "9.name".data
      "9".data "name".data [] (by rfl) (Or.inl (by rfl)),
    unresolved_placeholder_c3.2.2.2 (JVal.jbool true) [] ?_⟩
  intro s h
  cases h

/-- Counterexample to claim C9: for `hmac` authentication the claim says
processing fails exactly when the signature header is absent, but a
present-yet-empty `x-webhook-signature` header is falsy, so the dispatch
fails although the header is present (and no history entry is added). -/
theorem webhook_hmac_empty_signature_c9_counterexample :
    lookupKey [("x-webhook-signature", "")] "x-webhook-signature" = some ""
  ∧ (processWebhook c9HmacState "T" "/h" [("x-webhook-signature", "")] (JVal.jobj [])).1
      = Except.error "Missing webhook signature"
  ∧ (processWebhook c9HmacState "T" "/h" [("x-webhook-signature", "")] (JVal.jobj [])).2
      = c9HmacState :=
  ⟨by rfl, by rfl, by rfl⟩

/-- Claim C9 (amended): `processWebhook` fails with the not-found error
when no webhook is registered for the path; authentication by the stored
`authType` passes for `none` always, for `token` exactly when the first
non-empty of the `x-webhook-token` / `authorization` headers is a
non-empty string equal to the stored token, and for `hmac` exactly when
the `x-webhook-signature` header is present and non-empty; on success a
history entry is appended and the stored handler is invoked with
`(body, headers)`, its result returned wrapped in a success envelope. -/
theorem webhook_dispatch_c9_amended :
    (∀ (st : WState) (now path : String) (headers : List (String × String)) (body : JVal),
        (st.registeredWebhooks.map Prod.snd).find? (fun h => h.path == path) = none →
        processWebhook st now path headers body =
          (Except.error ("No webhook registered for path: " ++ path), st))
  ∧ (∀ (w : Webhook) (headers : List (String × String)), w.authType = "token" →
        (validateWebhookAuth w headers = Except.ok () ↔
          ∃ t, effectiveToken headers = some t ∧ t ≠ ""
            ∧ lookupKey w.authConfig "token" = some (JVal.jstr t)))
  ∧ (∀ (w : Webhook) (headers : List (String × String)), w.authType = "hmac" →
        (validateWebhookAuth w headers = Except.ok () ↔
          ∃ sg, lookupKey headers "x-webhook-signature" = some sg ∧ sg ≠ ""))
  ∧ (∀ (w : Webhook) (headers : List (String × String)), w.authType = "none" →
        validateWebhookAuth w headers = Except.ok ())
  ∧ (∀ (st : WState) (now path : String) (headers : List (String × String)) (body : JVal)
        (w : Webhook) (r : JVal),
        (st.registeredWebhooks.map Prod.snd).find? (fun h => h.path == path) = some w →
        validateWebhookAuth w headers = Except.ok () →
        w.handler body headers = Except.ok r →
        processWebhook st now path headers body =
          (Except.ok (JVal.jobj [("status", JVal.jstr "success"),
              ("webhookId", JVal.jstr w.id), ("result", r)]),
           { st with webhookHistory := st.webhookHistory ++
              [{ webhookId := w.id, path := path, timestamp := now,
                 headers := headers, body := body }] })) := by
  refine ⟨?_, ?_, ?_, ?_, ?_⟩
  · intro st now path headers body hfind
    unfold processWebhook
    rw [hfind]
  · intro w headers hw
    unfold validateWebhookAuth
    rw [hw]
    rw [if_pos rfl]
    cases heff : effectiveToken headers with
    | none => simp [heff]
    | some t =>
        by_cases ht : t = ""
        · subst ht
          simp [heff]
        · cases hcfg : lookupKey w.authConfig "token" with
          | none => simp [heff, ht, hcfg]
          | some v =>
              cases v with
              | jstr stored =>
                  by_cases hts : t = stored
                  · subst hts
                    simp [heff, ht, hcfg]
                  · simp [heff, ht, hcfg, hts]
                    exact fun hh => hts hh.symm
              | jundef => simp [heff, ht, hcfg]
              | jnull => simp [heff, ht, hcfg]
              | jbool b => simp [heff, ht, hcfg]
              | jnum q => simp [heff, ht, hcfg]
              | jarr xs => simp [heff, ht, hcfg]
              | jobj fs => simp [heff, ht, hcfg]
  · intro w headers hw
    unfold validateWebhookAuth
    rw [hw]
    rw [if_neg (by decide), if_pos rfl]
    cases hsig : lookupKey headers "x-webhook-signature" with
    | none => simp [hsig]
    | some sg =>
        by_cases hs : sg = ""
        · subst hs
          simp [hsig]
        · simp [hsig, hs]
  · intro w headers hw
    unfold validateWebhookAuth
    rw [hw]
    rw [if_neg (by decide), if_neg (by decide), if_pos rfl]
  · intro st now path headers body w r hfind hauth hhandler
    simp only [processWebhook, hfind]
    rw [hauth, hhandler]

/-- Witness for the amended C9 at concrete states: unknown path,
passing token / hmac / none authentications, and a full successful
dispatch appending its history entry. -/
theorem webhook_dispatch_c9_witness :
    processWebhook { registeredWebhooks := [], webhookHistory := [] } "T" "/x" [] JVal.jnull
        = (Except.error "No webhook registered for path: /x",
           { registeredWebhooks := [], webhookHistory := [] })
  ∧ validateWebhookAuth c9TokenHook [("x-webhook-token", "sekret")] = Except.ok ()
  ∧ validateWebhookAuth c9HmacHook [("x-webhook-signature", "sig")] = Except.ok ()
  ∧ validateWebhookAuth { c9HmacHook with authType := "none" } [] = Except.ok ()
  ∧ processWebhook c9TokenState "T" "/t" [("x-webhook-token", "sekret")] (JVal.jstr "B")
      = (Except.ok (JVal.jobj [("status", JVal.jstr "success"),
            ("webhookId", JVal.jstr "webhook_2"), ("result", JVal.jstr "B")]),
         { registeredWebhooks := c9TokenState.registeredWebhooks,
           webhookHistory := [{ webhookId := "webhook_2", path := "/t", timestamp := "T",
                                headers := [("x-webhook-token", "sekret")],
                                body := JVal.jstr "B" }] }) :=
  ⟨webhook_dispatch_c9_amended.1 { registeredWebhooks := [], webhookHistory := [] }
      "T" "/x" [] JVal.jnull (by rfl),
   (webhook_dispatch_c9_amended.2.1 c9TokenHook [("x-webhook-token", "sekret")] (by rfl)).mpr
      ⟨"sekret", by rfl, by decide, by rfl⟩,
   (webhook_dispatch_c9_amended.2.2.1 c9HmacHook [("x-webhook-signature", "sig")] (by rfl)).mpr
      ⟨"sig", by rfl, by decide⟩,
   webhook_dispatch_c9_amended.2.2.2.1 { c9HmacHook with authType := "none" } [] (by rfl),
   webhook_dispatch_c9_amended.2.2.2.2 c9TokenState "T" "/t" [("x-webhook-token", "sekret")]
      (JVal.jstr "B") c9TokenHook (JVal.jstr "B") (by rfl) (by rfl) (by rfl)⟩

/-- `findClose` splits its input: the inner part rejoined with `}}` and
the remainder reconstructs the input. -/
theorem findClose_sound : ∀ (l a b : List Char), findClose l = some (a, b) →
    l = a ++ '}' :: '}' :: b
  | [], a, b, h => by simp [findClose] at h
  | [c], a, b, h => by simp [findClose] at h
  | c :: d :: rest, a, b, h => by
      rw [findClose] at h
      by_cases hcd : c = '}' ∧ d = '}'
      · rw [if_pos hcd] at h
        simp only [Option.some.injEq, Prod.mk.injEq] at h
        obtain ⟨rfl, rfl⟩ := h
        simp [hcd.1, hcd.2]
      · rw [if_neg hcd] at h
        cases hrec : findClose (d :: rest) with
        | none => rw [hrec] at h; simp at h
        | some p =>
            obtain ⟨a1, b1⟩ := p
            rw [hrec] at h
            simp only [Option.some.injEq, Prod.mk.injEq] at h
            obtain ⟨rfl, rfl⟩ := h
            have ih := findClose_sound (d :: rest) a1 b1 hrec
            rw [List.cons_append, ← ih]

/-- The inner part returned by `findClose` contains no earlier `}}`:
re-scanning it followed by `}}` and anything finds that same close. -/
theorem findClose_self : ∀ (l a b : List Char), findClose l = some (a, b) →
    ∀ (Y : List Char), findClose (a ++ '}' :: '}' :: Y) = some (a, Y)
  | [], a, b, h => by simp [findClose] at h
  | [c], a, b, h => by simp [findClose] at h
  | c :: d :: rest, a, b, h => by
      rw [findClose] at h
      by_cases hcd : c = '}' ∧ d = '}'
      · rw [if_pos hcd] at h
        simp only [Option.some.injEq, Prod.mk.injEq] at h
        obtain ⟨rfl, rfl⟩ := h
        intro Y
        simp [findClose]
      · rw [if_neg hcd] at h
        cases hrec : findClose (d :: rest) with
        | none => rw [hrec] at h; simp at h
        | some p =>
            obtain ⟨a1, b1⟩ := p
            rw [hrec] at h
            simp only [Option.some.injEq, Prod.mk.injEq] at h
            obtain ⟨rfl, rfl⟩ := h
            intro Y
            have hd := findClose_sound (d :: rest) a1 b1 hrec
            cases a1 with
            | nil =>
                have hdj : d = '}' := by
                  simpa using congrArg (fun t => t.head?) hd
                have hcne : c ≠ '}' := fun hcc => hcd ⟨hcc, hdj⟩
                show findClose (c :: '}' :: '}' :: Y) = some ([c], Y)
                rw [findClose, if_neg (fun hh => hcne hh.1)]
                rw [show findClose ('}' :: '}' :: Y) = some ([], Y) from by
                  rw [findClose, if_pos ⟨rfl, rfl⟩]]
            | cons e a2 =>
                have he : d = e := by
                  simpa using congrArg (fun t => t.head?) hd
                have ih := findClose_self (d :: rest) (e :: a2) b1 hrec Y
                simp only [List.cons_append] at ih ⊢
                rw [findClose, if_neg (fun hh => hcd ⟨hh.1, he ▸ hh.2⟩), ih]

/-- The scanner's fuel is irrelevant once it covers the input length. -/
theorem resolveChars_fuel (ctx : Ctx) : ∀ (f g : Nat) (l : List Char),
    l.length ≤ f → l.length ≤ g → resolveChars ctx f l = resolveChars ctx g l
  | f, g, [], _, _ => by cases f <;> cases g <;> simp [resolveChars]
  | 0, _, c :: rest, hf, _ => by simp at hf
  | _ + 1, 0, c :: rest, _, hg => by simp at hg
  | f + 1, g + 1, c :: rest, hf, hg => by
      rw [resolveChars, resolveChars]
      by_cases hc : c = '{' ∧ rest.head? = some '{'
      · rw [if_pos hc, if_pos hc]
        cases hfc : findClose rest.tail with
        | none => rfl
        | some p =>
            obtain ⟨inner, rest2⟩ := p
            have hs := findClose_sound rest.tail inner rest2 hfc
            have htl : rest.tail.length ≤ rest.length := by cases rest <;> simp
            have hlen : rest.tail.length = inner.length + (rest2.length + 2) := by
              rw [hs]; simp [List.length_append]
            have h1 : rest2.length ≤ f := by
              simp only [List.length_cons] at hf; omega
            have h2 : rest2.length ≤ g := by
              simp only [List.length_cons] at hg; omega
            simp only [resolveChars_fuel ctx f g rest2 h1 h2]
      · rw [if_neg hc, if_neg hc]
        have h1 : rest.length ≤ f := by simp only [List.length_cons] at hf; omega
        have h2 : rest.length ≤ g := by simp only [List.length_cons] at hg; omega
        rw [resolveChars_fuel ctx f g rest h1 h2]

/-- One literal character copied by the scanner. -/
theorem resolveStr_cons (ctx : Ctx) (c : Char) (rest : List Char)
    (h : ¬(c = '{' ∧ rest.head? = some '{')) :
    resolveStr ctx (c :: rest) = c :: resolveStr ctx rest := by
  show resolveChars ctx (rest.length + 1) (c :: rest) = _
  rw [resolveChars, if_neg h]
  rfl

/-- One `{{...}}` span processed by the scanner. -/
theorem resolveStr_span (ctx : Ctx) (tl inner rest2 : List Char)
    (hfc : findClose tl = some (inner, rest2)) :
    resolveStr ctx ('{' :: '{' :: tl) = spanReplace ctx inner ++ resolveStr ctx rest2 := by
  have hs := findClose_sound tl inner rest2 hfc
  have hlen : rest2.length ≤ tl.length + 1 := by
    rw [hs]; simp only [List.length_append, List.length_cons]; omega
  show resolveChars ctx (tl.length + 1 + 1) ('{' :: '{' :: tl) = _
  rw [resolveChars, if_pos ⟨rfl, rfl⟩]
  simp only [List.tail_cons, hfc]
  rw [resolveChars_fuel ctx (tl.length + 1) rest2.length rest2 hlen (Nat.le_refl _)]
  rfl

/-- A `{{` with no later `}}` leaves the whole text literal. -/
theorem resolveStr_noClose (ctx : Ctx) (tl : List Char) (hfc : findClose tl = none) :
    resolveStr ctx ('{' :: '{' :: tl) = '{' :: '{' :: tl := by
  show resolveChars ctx (tl.length + 1 + 1) ('{' :: '{' :: tl) = _
  rw [resolveChars, if_pos ⟨rfl, rfl⟩]
  simp only [List.tail_cons, hfc]

/-- The scanner cannot create a leading `{` out of text that does not
start with one. -/
theorem resolveStr_head (ctx : Ctx) (l : List Char) (h : l.head? ≠ some '{') :
    (resolveStr ctx l).head? ≠ some '{' := by
  cases l with
  | nil => simp [resolveStr, resolveChars]
  | cons d r =>
      have hd : d ≠ '{' := by simpa using h
      rw [resolveStr_cons ctx d r (fun hh => hd hh.1)]
      simpa using hd

/-- The scanner maps brace-free prefixes verbatim. -/
theorem resolveStr_append (ctx : Ctx) (val X : List Char) (h : '{' ∉ val) :
    resolveStr ctx (val ++ X) = val ++ resolveStr ctx X := by
  induction val with
  | nil => rfl
  | cons v val ih =>
      have hv1 : v ≠ '{' := fun he => h (by simp [he])
      have h2 : '{' ∉ val := fun hm => h (List.mem_cons_of_mem v hm)
      rw [List.cons_append, resolveStr_cons ctx v (val ++ X) (fun hh => hv1 hh.1), ih h2]
      rfl

/-- Idempotence of the scanner on character lists, given that every
substitutable value is brace-free. -/
theorem resolveStr_idem (ctx : Ctx) (hctx : resolvedBraceFree ctx) :
    ∀ (l : List Char), resolveStr ctx (resolveStr ctx l) = resolveStr ctx l
  | [] => rfl
  | c :: rest => by
      by_cases hc : c = '{' ∧ rest.head? = some '{'
      · obtain ⟨rfl, hh⟩ := hc
        cases rest with
        | nil => simp at hh
        | cons c2 tl =>
            have hc2 : c2 = '{' := by simpa using hh
            subst hc2
            cases hfc : findClose tl with
            | none =>
                have hres := resolveStr_noClose ctx tl hfc
                rw [hres, hres]
            | some p =>
                obtain ⟨inner, rest2⟩ := p
                have hsound := findClose_sound tl inner rest2 hfc
                have hlen2 : rest2.length < ('{' :: '{' :: tl).length := by
                  rw [hsound]
                  simp only [List.length_cons, List.length_append]
                  omega
                have hrec := resolveStr_idem ctx hctx rest2
                rw [resolveStr_span ctx tl inner rest2 hfc]
                cases hrp : resolvePath ctx inner with
                | none =>
                    have hspan : spanReplace ctx inner
                        = '{' :: '{' :: (inner ++ '}' :: '}' :: []) := by
                      unfold spanReplace; rw [hrp]
                    have hassoc : ∀ (Y : List Char),
                        ('{' :: '{' :: (inner ++ '}' :: '}' :: [])) ++ Y
                          = '{' :: '{' :: (inner ++ '}' :: '}' :: Y) := by
                      intro Y
                      simp
                    rw [hspan, hassoc]
                    rw [resolveStr_span ctx (inner ++ '}' :: '}' :: resolveStr ctx rest2)
                          inner (resolveStr ctx rest2)
                          (findClose_self tl inner rest2 hfc (resolveStr ctx rest2))]
                    rw [hspan, hrec, hassoc]
                | some s =>
                    have hspan : spanReplace ctx inner = s.data := by
                      unfold spanReplace; rw [hrp]
                    have hbr := hctx inner s hrp
                    rw [hspan, resolveStr_append ctx s.data (resolveStr ctx rest2) hbr.1, hrec]
      · have hcons := resolveStr_cons ctx c rest hc
        rw [hcons]
        have hc2 : ¬(c = '{' ∧ (resolveStr ctx rest).head? = some '{') := by
          intro hh
          obtain ⟨rfl, hh2⟩ := hh
          have hr : rest.head? ≠ some '{' := fun hr => hc ⟨rfl, hr⟩
          exact resolveStr_head ctx rest hr hh2
        rw [resolveStr_cons ctx c (resolveStr ctx rest) hc2]
        rw [resolveStr_idem ctx hctx rest]
termination_by l => l.length
decreasing_by
  · exact hlen2
  · simp

/-- Any successfully resolved text is the stringification of a value
reachable from the context. -/
theorem resolvePath_shape (ctx : Ctx) (inner : List Char) (s : String)
    (hres : resolvePath ctx inner = some s) :
    ∃ nid obj f v, lookupKey ctx nid = some obj ∧ lookupKey obj f = some v
      ∧ s = stringifyVal v := by
  unfold resolvePath at hres
  rcases hsd : splitDots inner with _ | ⟨nodeId, _ | ⟨field, restParts⟩⟩
  · simp [hsd] at hres
  · simp [hsd] at hres
  · simp only [hsd] at hres
    by_cases h0 : String.mk nodeId = "" ∨ String.mk field = ""
    · rw [if_pos h0] at hres
      simp at hres
    · rw [if_neg h0] at hres
      cases hk : lookupKey ctx (String.mk nodeId) with
      | none =>
          simp only [hk] at hres
          simp at hres
      | some obj =>
          simp only [hk] at hres
          cases hf : lookupKey obj (String.mk field) with
          | none =>
              simp only [hf] at hres
              simp at hres
          | some v =>
              simp only [hf] at hres
              cases v with
              | jundef => simp at hres
              | jnull =>
                  simp only [Option.some.injEq] at hres
                  exact ⟨String.mk nodeId, obj, String.mk field, JVal.jnull, hk, hf, hres.symm⟩
              | jbool b =>
                  simp only [Option.some.injEq] at hres
                  exact ⟨String.mk nodeId, obj, String.mk field, JVal.jbool b, hk, hf, hres.symm⟩
              | jnum q =>
                  simp only [Option.some.injEq] at hres
                  exact ⟨String.mk nodeId, obj, String.mk field, JVal.jnum q, hk, hf, hres.symm⟩
              | jstr s2 =>
                  simp only [Option.some.injEq] at hres
                  exact ⟨String.mk nodeId, obj, String.mk field, JVal.jstr s2, hk, hf, hres.symm⟩
              | jarr xs =>
                  simp only [Option.some.injEq] at hres
                  exact ⟨String.mk nodeId, obj, String.mk field, JVal.jarr xs, hk, hf, hres.symm⟩
              | jobj fs =>
                  simp only [Option.some.injEq] at hres
                  exact ⟨String.mk nodeId, obj, String.mk field, JVal.jobj fs, hk, hf, hres.symm⟩

/-- Lookup in a one-entry object can only produce that entry's value. -/
theorem lookupKey_singleton {α : Type} (k k2 : String) (v w : α)
    (h : lookupKey [(k, v)] k2 = some w) : w = v := by
  unfold lookupKey at h
  by_cases hk : k = k2
  · rw [if_pos hk] at h
    injection h with h1
    exact h1.symm
  · rw [if_neg hk] at h
    simp [lookupKey] at h

/-- Claim C4 (amended): variable resolution is idempotent —
`resolve(resolve(t, ctx), ctx) = resolve(t, ctx)` — for every context
whose substitutable values stringify without brace characters (the
counterexample shows idempotence fails when a substituted value itself
contains a resolvable `{{...}}` placeholder). -/
theorem resolve_idempotent_c4_amended (ctx : Ctx) (hctx : resolvedBraceFree ctx)
    (t : String) :
    resolveVariables (resolveVariables t ctx) ctx = resolveVariables t ctx := by
  show String.mk (resolveStr ctx (resolveStr ctx t.data)) = String.mk (resolveStr ctx t.data)
  rw [resolveStr_idem ctx hctx t.data]

/-- Witness for the amended C4: a context holding only the brace-free
text `hello`, on a template with one resolvable and one unresolvable
placeholder. -/
theorem resolve_idempotent_c4_witness :
    resolveVariables
        (resolveVariables "{{1.a}} {{9.q}}" [("1", [("a", JVal.jstr "hello")])])
        [("1", [("a", JVal.jstr "hello")])]
      = resolveVariables "{{1.a}} {{9.q}}" [("1", [("a", JVal.jstr "hello")])] := by
  apply resolve_idempotent_c4_amended
  intro inner s hres
  obtain ⟨nid, obj, f, v, hk, hf, hs⟩ :=
    resolvePath_shape [("1", [("a", JVal.jstr "hello")])] inner s hres
  have hobj := lookupKey_singleton "1" nid [("a", JVal.jstr "hello")] obj hk
  subst hobj
  have hv := lookupKey_singleton "a" f (JVal.jstr "hello") v hf
  subst hv
  subst hs
  exact (by decide : '{' ∉ ("hello" : String).data ∧ '}' ∉ ("hello" : String).data)

/-- A JS property write never removes other keys: any key present before
`setEntry` is present after. -/
theorem lookupKey_setEntry_isSome {α : Type} (l : List (String × α)) (k2 k : String) (v : α)
    (h : (lookupKey l k).isSome) : (lookupKey (setEntry l k2 v) k).isSome := by
  induction l with
  | nil => simp [lookupKey] at h
  | cons p rest ih =>
      obtain ⟨k1, v1⟩ := p
      by_cases h12 : k1 = k2
      · subst h12
        by_cases hk : k1 = k
        · simp [setEntry, lookupKey, hk]
        · simp only [setEntry, if_pos rfl]
          simp only [lookupKey, if_neg hk] at h ⊢
          exact h
      · by_cases hk : k1 = k
        · subst hk
          simp [setEntry, lookupKey, h12]
        · simp only [setEntry, if_neg h12]
          simp only [lookupKey, if_neg hk] at h ⊢
          exact ih h

/-- Any key present after a `setEntry` is the written key or was already
present. -/
theorem lookupKey_setEntry_inv {α : Type} (l : List (String × α)) (k2 k : String) (v : α)
    (h : (lookupKey (setEntry l k2 v) k).isSome) :
    k = k2 ∨ (lookupKey l k).isSome := by
  induction l with
  | nil =>
      simp only [setEntry, lookupKey] at h
      by_cases hk : k2 = k
      · exact Or.inl hk.symm
      · rw [if_neg hk] at h
        simp [lookupKey] at h
  | cons p rest ih =>
      obtain ⟨k1, v1⟩ := p
      by_cases h12 : k1 = k2
      · subst h12
        simp only [setEntry, if_pos rfl] at h
        by_cases hk : k1 = k
        · exact Or.inl hk.symm
        · simp only [lookupKey, if_neg hk] at h ⊢
          exact Or.inr h
      · simp only [setEntry, if_neg h12] at h
        by_cases hk : k1 = k
        · simp [lookupKey, hk]
        · simp only [lookupKey, if_neg hk] at h ⊢
          exact ih h

/-- Keys of a `setEntry` result come from the written key or the
original keys. -/
theorem mem_keys_setEntry {α : Type} (l : List (String × α)) (k2 k : String) (v : α)
    (h : k ∈ (setEntry l k2 v).map Prod.fst) : k = k2 ∨ k ∈ l.map Prod.fst := by
  induction l with
  | nil =>
      simp only [setEntry, List.map_cons, List.map_nil, List.mem_cons,
        List.not_mem_nil, or_false] at h
      exact Or.inl h
  | cons p rest ih =>
      obtain ⟨k1, v1⟩ := p
      by_cases h12 : k1 = k2
      · subst h12
        rw [show setEntry ((k1, v1) :: rest) k1 v = (k1, v) :: rest from by
          simp [setEntry]] at h
        simp only [List.map_cons, List.mem_cons] at h
        rcases h with h | h
        · exact Or.inl h
        · exact Or.inr (List.mem_cons_of_mem _ h)
      · rw [show setEntry ((k1, v1) :: rest) k2 v = (k1, v1) :: setEntry rest k2 v from by
          simp [setEntry, h12]] at h
        simp only [List.map_cons, List.mem_cons] at h
        rcases h with h | h
        · exact Or.inr (by simp only [List.map_cons, List.mem_cons]; exact Or.inl h)
        · rcases ih h with h2 | h2
          · exact Or.inl h2
          · exact Or.inr (by simp only [List.map_cons, List.mem_cons]; exact Or.inr h2)

/-- A JS property write keeps the keys duplicate-free. -/
theorem keys_nodup_setEntry {α : Type} (l : List (String × α)) (k : String) (v : α)
    (h : (l.map Prod.fst).Nodup) : ((setEntry l k v).map Prod.fst).Nodup := by
  induction l with
  | nil => simp [setEntry]
  | cons p rest ih =>
      obtain ⟨k1, v1⟩ := p
      simp only [List.map_cons, List.nodup_cons] at h
      obtain ⟨hk1, hrest⟩ := h
      by_cases h12 : k1 = k
      · subst h12
        rw [show setEntry ((k1, v1) :: rest) k1 v = (k1, v) :: rest from by
          simp [setEntry]]
        simp only [List.map_cons, List.nodup_cons]
        exact ⟨hk1, hrest⟩
      · rw [show setEntry ((k1, v1) :: rest) k v = (k1, v1) :: setEntry rest k v from by
          simp [setEntry, h12]]
        simp only [List.map_cons, List.nodup_cons]
        refine ⟨?_, ih hrest⟩
        intro hmem
        rcases mem_keys_setEntry rest k k1 v hmem with h2 | h2
        · exact h12 h2
        · exact hk1 h2

/-- Traversal never removes context entries: any node id present in the
context stays present through `runEdges`. -/
theorem runEdges_mono (env : Env) (nds : List Node) (eds : List Edge) :
    ∀ (fuel : Nat) (es : List Edge) (st : RunState) (k : String),
      (lookupKey st.context k).isSome →
      (lookupKey (runEdges env nds eds fuel es st).context k).isSome := by
  intro fuel
  induction fuel with
  | zero =>
      intro es st k h
      simpa only [runEdges] using h
  | succ f ih =>
      intro es st k h
      cases es with
      | nil => simpa only [runEdges] using h
      | cons e rest =>
          cases hfind : nds.find? (fun n => n.id == e.target) with
          | none =>
              simp only [runEdges, hfind]
              exact ih rest st k h
          | some tn =>
              cases hval : validateNode tn with
              | some verr =>
                  simp only [runEdges, hfind, hval]
                  exact ih rest _ k h
              | none =>
                  simp only [runEdges, hfind, hval]
                  by_cases hfil : tn.type = NodeType.filter
                  · rw [if_pos hfil]
                    by_cases hcp : evalFilterCondition (getCfg tn "operator")
                        (resolveOpt (getCfg tn "field") st.context)
                        (resolveOpt (getCfg tn "value") st.context) = true
                    · rw [if_pos hcp]
                      exact ih rest _ k (ih _ _ k
                        (lookupKey_setEntry_isSome st.context tn.id k (filterObj st tn) h))
                    · rw [if_neg hcp]
                      exact ih rest _ k
                        (lookupKey_setEntry_isSome st.context tn.id k (filterObj st tn) h)
                  · rw [if_neg hfil]
                    exact ih rest _ k (ih _ _ k
                      (lookupKey_setEntry_isSome st.context tn.id k
                        (mergeResult (executeNode env tn st.context)) h))

/-- Traversal keeps the context's node-id keys duplicate-free. -/
theorem runEdges_nodup (env : Env) (nds : List Node) (eds : List Edge) :
    ∀ (fuel : Nat) (es : List Edge) (st : RunState),
      (st.context.map Prod.fst).Nodup →
      ((runEdges env nds eds fuel es st).context.map Prod.fst).Nodup := by
  intro fuel
  induction fuel with
  | zero =>
      intro es st h
      simpa only [runEdges] using h
  | succ f ih =>
      intro es st h
      cases es with
      | nil => simpa only [runEdges] using h
      | cons e rest =>
          cases hfind : nds.find? (fun n => n.id == e.target) with
          | none =>
              simp only [runEdges, hfind]
              exact ih rest st h
          | some tn =>
              cases hval : validateNode tn with
              | some verr =>
                  simp only [runEdges, hfind, hval]
                  exact ih rest _ h
              | none =>
                  simp only [runEdges, hfind, hval]
                  by_cases hfil : tn.type = NodeType.filter
                  · rw [if_pos hfil]
                    by_cases hcp : evalFilterCondition (getCfg tn "operator")
                        (resolveOpt (getCfg tn "field") st.context)
                        (resolveOpt (getCfg tn "value") st.context) = true
                    · rw [if_pos hcp]
                      exact ih rest _ (ih _ _
                        (keys_nodup_setEntry st.context tn.id (filterObj st tn) h))
                    · rw [if_neg hcp]
                      exact ih rest _
                        (keys_nodup_setEntry st.context tn.id (filterObj st tn) h)
                  · rw [if_neg hfil]
                    exact ih rest _ (ih _ _
                      (keys_nodup_setEntry st.context tn.id
                        (mergeResult (executeNode env tn st.context)) h))

/-- Every context entry the traversal adds is keyed by the target of
some edge of the graph: a key of the resulting context was already
present or is an edge target. -/
theorem runEdges_origin (env : Env) (nds : List Node) (eds : List Edge) :
    ∀ (fuel : Nat) (es : List Edge) (st : RunState) (k : String),
      (∀ e2, e2 ∈ es → e2 ∈ eds) →
      (lookupKey (runEdges env nds eds fuel es st).context k).isSome →
      (lookupKey st.context k).isSome ∨ ∃ e2, e2 ∈ eds ∧ e2.target = k := by
  intro fuel
  induction fuel with
  | zero =>
      intro es st k hsub h
      exact Or.inl (by simpa only [runEdges] using h)
  | succ f ih =>
      intro es st k hsub h
      cases es with
      | nil => exact Or.inl (by simpa only [runEdges] using h)
      | cons e rest =>
          have hsubrest : ∀ e2, e2 ∈ rest → e2 ∈ eds :=
            fun e2 he2 => hsub e2 (List.mem_cons_of_mem e he2)
          have hsubout : ∀ e2, e2 ∈ eds.filter (fun e2 => e2.source == e.target) → e2 ∈ eds :=
            fun e2 he2 => (List.mem_filter.mp he2).1
          have hmeme : e ∈ eds := hsub e (List.mem_cons_self e rest)
          cases hfind : nds.find? (fun n => n.id == e.target) with
          | none =>
              simp only [runEdges, hfind] at h
              exact ih rest st k hsubrest h
          | some tn =>
              have htn : tn.id = e.target := by
                have := List.find?_some hfind
                simpa using this
              have hwrup : ∀ (V : Obj),
                  (lookupKey (setEntry st.context tn.id V) k).isSome →
                  (lookupKey st.context k).isSome ∨ ∃ e2, e2 ∈ eds ∧ e2.target = k := by
                intro V hv
                rcases lookupKey_setEntry_inv st.context tn.id k V hv with h4 | h4
                · exact Or.inr ⟨e, hmeme, by rw [← htn]; exact h4.symm⟩
                · exact Or.inl h4
              cases hval : validateNode tn with
              | some verr =>
                  simp only [runEdges, hfind, hval] at h
                  rcases ih rest _ k hsubrest h with h2 | h2
                  · exact Or.inl h2
                  · exact Or.inr h2
              | none =>
                  simp only [runEdges, hfind, hval] at h
                  by_cases hfil : tn.type = NodeType.filter
                  · rw [if_pos hfil] at h
                    by_cases hcp : evalFilterCondition (getCfg tn "operator")
                        (resolveOpt (getCfg tn "field") st.context)
                        (resolveOpt (getCfg tn "value") st.context) = true
                    · rw [if_pos hcp] at h
                      rcases ih rest _ k hsubrest h with h2 | h2
                      · rcases ih _ _ k hsubout h2 with h3 | h3
                        · exact hwrup (filterObj st tn) h3
                        · exact Or.inr h3
                      · exact Or.inr h2
                    · rw [if_neg hcp] at h
                      rcases ih rest _ k hsubrest h with h2 | h2
                      · exact hwrup (filterObj st tn) h2
                      · exact Or.inr h2
                  · rw [if_neg hfil] at h
                    rcases ih rest _ k hsubrest h with h2 | h2
                    · rcases ih _ _ k hsubout h2 with h3 | h3
                      · exact hwrup (mergeResult (executeNode env tn st.context)) h3
                      · exact Or.inr h3
                    · exact Or.inr h2

/-- Claim C5 (amended): within a single run the ExecutionContext is
append-only only in the weaker sense that node-id keys are never
removed — an id present in the context stays present for the rest of the
run — and each id has at most one entry (keys stay duplicate-free); a
node reachable along several edges is re-executed and its entry
overwritten with the fresh result (see the counterexample).  Moreover
every key of the final context is a Trigger node's id or the target of
some edge. -/
theorem context_append_only_c5_amended :
    (∀ (env : Env) (nds : List Node) (eds : List Edge) (fuel : Nat) (es : List Edge)
        (st : RunState) (k : String),
        (lookupKey st.context k).isSome →
        (lookupKey (runEdges env nds eds fuel es st).context k).isSome)
  ∧ (∀ (env : Env) (fuel : Nat) (nds : List Node) (eds : List Edge),
        ((simulateWorkflow env fuel nds eds).context.map Prod.fst).Nodup)
  ∧ (∀ (env : Env) (fuel : Nat) (nds : List Node) (eds : List Edge) (k : String),
        (lookupKey (simulateWorkflow env fuel nds eds).context k).isSome →
        (∃ n, n ∈ nds ∧ n.type = NodeType.trigger ∧ n.id = k)
          ∨ ∃ e2, e2 ∈ eds ∧ e2.target = k) := by
  refine ⟨runEdges_mono, ?_, ?_⟩
  · intro env fuel nds eds
    have hfold2 : ∀ (l : List Node) (st : RunState), (st.context.map Prod.fst).Nodup →
        (((l.foldl (fun st tn =>
            let st1 : RunState := { st with
              logs := st.logs ++ ["Trigger: " ++ tn.label ++ " fired"],
              context := setEntry st.context tn.id (triggerSeed env tn) }
            processConnectedNodes env nds eds fuel tn.id st1) st).context).map Prod.fst).Nodup := by
      intro l
      induction l with
      | nil => intro st h; exact h
      | cons tn l ihl =>
          intro st h
          simp only [List.foldl_cons]
          exact ihl _ (runEdges_nodup env nds eds fuel _ _
            (keys_nodup_setEntry st.context tn.id (triggerSeed env tn) h))
    by_cases hni : nds.isEmpty = true
    · unfold simulateWorkflow
      rw [if_pos hni]
      simp
    · unfold simulateWorkflow
      rw [if_neg hni]
      exact hfold2 (nds.filter (fun n => n.type == NodeType.trigger)) _ (by simp)
  · intro env fuel nds eds k
    have hfold3 : ∀ (l : List Node) (st : RunState),
        (∀ tn, tn ∈ l → tn ∈ nds ∧ tn.type = NodeType.trigger) →
        (∀ k2, (lookupKey st.context k2).isSome →
          (∃ n, n ∈ nds ∧ n.type = NodeType.trigger ∧ n.id = k2)
            ∨ ∃ e2, e2 ∈ eds ∧ e2.target = k2) →
        ∀ k2, (lookupKey ((l.foldl (fun st tn =>
            let st1 : RunState := { st with
              logs := st.logs ++ ["Trigger: " ++ tn.label ++ " fired"],
              context := setEntry st.context tn.id (triggerSeed env tn) }
            processConnectedNodes env nds eds fuel tn.id st1) st).context) k2).isSome →
          (∃ n, n ∈ nds ∧ n.type = NodeType.trigger ∧ n.id = k2)
            ∨ ∃ e2, e2 ∈ eds ∧ e2.target = k2 := by
      intro l
      induction l with
      | nil => intro st hl hst k2 h; exact hst k2 h
      | cons tn l ihl =>
          intro st hl hst k2 h
          simp only [List.foldl_cons] at h
          refine ihl _ (fun tn2 htn2 => hl tn2 (List.mem_cons_of_mem tn htn2)) ?_ k2 h
          intro k3 h3
          rcases runEdges_origin env nds eds fuel _ _ k3
              (fun e2 he2 => (List.mem_filter.mp he2).1) h3 with h4 | h4
          · rcases lookupKey_setEntry_inv st.context tn.id k3 (triggerSeed env tn) h4 with h5 | h5
            · exact Or.inl ⟨tn, (hl tn (List.mem_cons_self tn l)).1,
                (hl tn (List.mem_cons_self tn l)).2, h5.symm⟩
            · exact hst k3 h5
          · exact Or.inr h4
    by_cases hni : nds.isEmpty = true
    · unfold simulateWorkflow
      rw [if_pos hni]
      intro h
      simp [lookupKey] at h
    · unfold simulateWorkflow
      rw [if_neg hni]
      refine hfold3 (nds.filter (fun n => n.type == NodeType.trigger)) _ ?_ ?_ k
      · intro tn htn
        have := List.mem_filter.mp htn
        exact ⟨this.1, by simpa using this.2⟩
      · intro k2 h2
        simp [lookupKey] at h2

/-- Witness for the amended C5 on the C5 graph: the trigger's entry
stays present through the run, the final context's keys are
duplicate-free, and the overwritten key `3` is an edge target. -/
theorem context_append_only_c5_witness :
    (lookupKey (runEdges mockEnv c5Nodes c5Edges 10 [c5e13, c5e12] c5Seed).context "1").isSome
  ∧ ((simulateWorkflow mockEnv 10 c5Nodes c5Edges).context.map Prod.fst).Nodup
  ∧ ((∃ n, n ∈ c5Nodes ∧ n.type = NodeType.trigger ∧ n.id = "3")
      ∨ ∃ e2, e2 ∈ c5Edges ∧ e2.target = "3") :=
  ⟨context_append_only_c5_amended.1 mockEnv c5Nodes c5Edges 10 [c5e13, c5e12] c5Seed "1"
      (by rfl),
   context_append_only_c5_amended.2.1 mockEnv 10 c5Nodes c5Edges,
   context_append_only_c5_amended.2.2 mockEnv 10 c5Nodes c5Edges "3" (by rfl)⟩
